import Mathlib

/-!
# vhost-user link endpoint: control-channel requests and endpoint construction

A shallow embedding of `pkg/tcpip/link/vhost-user` (`vhost_user.go`, `msg.go`,
`endpoint.go`).  Unsigned machine integers are natural numbers, `int` is `Int`,
a nil pointer or nil interface is `none`, fixed-size arrays are lists of the
array's length.  Calls that leave the package (the socket, shared memory, the
network stack) and the functions whose bodies the sources leave empty are
fields of an environment record; every such call is appended to a history, and
the environment answers as a function of the history so far.
-/

namespace vhostuser

/-! ## Constants of `vhost_user.go` -/

def VHOST_VRING_SIZE : Nat := 32 * 1024
def VIRTIO_DESC_F_NEXT : Nat := 1
def VIRTIO_DESC_F_WRITE : Nat := 2
def VIRTIO_DESC_F_INDIRECT : Nat := 4
def VHOST_CLIENT_VRING_IDX_RX : Nat := 0
def VHOST_CLIENT_VRING_IDX_TX : Nat := 1
def VHOST_CLIENT_VRING_NUM : Nat := 2
def VHOST_USER_VERSION : Nat := 0x1

/-! ## Constants of `msg.go` -/

def VHOST_USER_NONE : Nat := 0
def VHOST_USER_GET_FEATURES : Nat := 1
def VHOST_USER_SET_FEATURES : Nat := 2
def VHOST_USER_SET_OWNER : Nat := 3
def VHOST_USER_RESET_OWNER : Nat := 4
def VHOST_USER_SET_MEM_TABLE : Nat := 5
def VHOST_USER_SET_LOG_BASE : Nat := 6
def VHOST_USER_SET_LOG_FD : Nat := 7
def VHOST_USER_SET_VRING_NUM : Nat := 8
def VHOST_USER_SET_VRING_ADDR : Nat := 9
def VHOST_USER_SET_VRING_BASE : Nat := 10
def VHOST_USER_GET_VRING_BASE : Nat := 11
def VHOST_USER_SET_VRING_KICK : Nat := 12
def VHOST_USER_SET_VRING_CALL : Nat := 13
def VHOST_USER_SET_VRING_ERR : Nat := 14
def VHOST_USER_GET_PROTOCOL_FEATURES : Nat := 15
def VHOST_USER_SET_PROTOCOL_FEATURES : Nat := 16
def VHOST_USER_GET_QUEUE_NUM : Nat := 17
def VHOST_USER_SET_VRING_ENABLE : Nat := 18
def VHOST_USER_SEND_RARP : Nat := 19
def VHOST_USER_NET_SET_MTU : Nat := 20
def VHOST_USER_SET_SLAVE_REQ_FD : Nat := 21
def VHOST_USER_IOTLB_MSG : Nat := 22
def VHOST_USER_CRYPTO_CREATE_SESS : Nat := 26
def VHOST_USER_CRYPTO_CLOSE_SESS : Nat := 27
def VHOST_USER_POSTCOPY_ADVISE : Nat := 28
def VHOST_USER_POSTCOPY_LISTEN : Nat := 29
def VHOST_USER_POSTCOPY_END : Nat := 30
def VHOST_USER_MAX : Nat := 31
def MAX_PAYLOAD_SIZE : Nat := 1024

/-- Every request kind the constant block of `msg.go` defines, in source order
(`VHOST_USER_MAX`, the bound, is not one of them). -/
def definedRequests : List Nat :=
  [VHOST_USER_NONE, VHOST_USER_GET_FEATURES, VHOST_USER_SET_FEATURES,
   VHOST_USER_SET_OWNER, VHOST_USER_RESET_OWNER, VHOST_USER_SET_MEM_TABLE,
   VHOST_USER_SET_LOG_BASE, VHOST_USER_SET_LOG_FD, VHOST_USER_SET_VRING_NUM,
   VHOST_USER_SET_VRING_ADDR, VHOST_USER_SET_VRING_BASE, VHOST_USER_GET_VRING_BASE,
   VHOST_USER_SET_VRING_KICK, VHOST_USER_SET_VRING_CALL, VHOST_USER_SET_VRING_ERR,
   VHOST_USER_GET_PROTOCOL_FEATURES, VHOST_USER_SET_PROTOCOL_FEATURES,
   VHOST_USER_GET_QUEUE_NUM, VHOST_USER_SET_VRING_ENABLE, VHOST_USER_SEND_RARP,
   VHOST_USER_NET_SET_MTU, VHOST_USER_SET_SLAVE_REQ_FD, VHOST_USER_IOTLB_MSG,
   VHOST_USER_CRYPTO_CREATE_SESS, VHOST_USER_CRYPTO_CLOSE_SESS,
   VHOST_USER_POSTCOPY_ADVISE, VHOST_USER_POSTCOPY_LISTEN, VHOST_USER_POSTCOPY_END]

/-- Modelled from the spec: `VIRTQUEUE_NUM` is used by `endpoint.go` (the length
of `vringTable`, the value of `nregions`) but declared nowhere in the sources.
The spec composes an endpoint of one RX and one TX virtqueue with one memory
region per queue, which is also the declared length `VHOST_CLIENT_VRING_NUM`
of the `regions` and `fds` arrays that `New` indexes up to `nregions`. -/
def VIRTQUEUE_NUM : Nat := 2

/-! ## Data types -/

/-- Errors. `external` is an error handed back by a call that leaves the
package; the other constructors are the `fmt.Errorf` wrappers of the sources,
one per call site, keeping the arguments that are formatted into the text. -/
inductive Error where
  | external (code : Nat)
  | resolveFailed (path : String) (cause : Error)
  | dialFailed (path : String) (cause : Error)
  | connFileFailed (cause : Error)
  | writeRequestFailed (req : Nat) (cause : Error)
  | readResponseFailed (req : Nat) (cause : Error)
  | responseTypeMismatch (expected got : Nat)
  | responseSizeMismatch (expected got : Nat)
  | initClientFailed (cause : Error)
  | initShmFailed (cause : Error)
  | setMemTableFailed (cause : Error)
  | initVringFailed (cause : Error)
  | setVringFailed (cause : Error)
  deriving DecidableEq, Repr

structure vringDesc where
  addr : Nat
  length : Nat
  flags : Nat
  next : Nat
  deriving DecidableEq, Repr

structure vringAvail where
  flags : Nat
  idx : Nat
  ring : List Nat
  deriving DecidableEq, Repr

structure vringUsedElem where
  id : Nat
  length : Nat
  deriving DecidableEq, Repr

structure vringUsed where
  flags : Nat
  idx : Nat
  ring : List vringUsedElem
  deriving DecidableEq, Repr

/-- The `vring` struct. `desc`, `avail` and `used` are pointers into the shared
region: `none` is the nil pointer, `some` carries what is pointed at (for
`desc`, the descriptor table that starts there). -/
structure vring where
  kickfd : Int
  callfd : Int
  desc : Option (List vringDesc)
  avail : Option vringAvail
  used : Option vringUsed
  num : Nat
  last_avail_idx : Nat
  last_used_idx : Nat
  deriving DecidableEq, Repr

structure vhostUserMemoryRegion where
  guestPhysAddr : Nat
  memorySize : Nat
  userspaceAddr : Nat
  mmapOffset : Nat
  deriving DecidableEq, Repr

structure vhostUserMemory where
  nregions : Nat
  padding : Nat
  regions : List vhostUserMemoryRegion
  fds : List Int
  deriving DecidableEq, Repr

/-- The `vhostUserMsg` struct; `payload` is the byte array. -/
structure vhostUserMsg where
  request : Nat
  flags : Nat
  size : Nat
  payload : List Nat
  deriving DecidableEq, Repr

/-- The `vhostUserClient` struct; `conn` is the handle of the `*net.UnixConn`. -/
structure vhostUserClient where
  sockPath : String
  conn : Option Nat
  cfd : Int
  deriving DecidableEq, Repr

/-- The `Options` struct. -/
structure Options where
  MTU : Nat
  Addresses : String
  SocketPath : String
  deriving DecidableEq, Repr

/-- The `endpoint` struct; `dispatcher` is an interface value, `none` when nil. -/
structure endpoint where
  dispatcher : Option Nat
  client : vhostUserClient
  memory : vhostUserMemory
  vringTable : List vring
  deriving DecidableEq, Repr

/-! ## Zero values -/

def vring.zero : vring :=
  { kickfd := 0, callfd := 0, desc := none, avail := none, used := none,
    num := 0, last_avail_idx := 0, last_used_idx := 0 }

def vhostUserMemoryRegion.zero : vhostUserMemoryRegion :=
  { guestPhysAddr := 0, memorySize := 0, userspaceAddr := 0, mmapOffset := 0 }

def vhostUserMemory.zero : vhostUserMemory :=
  { nregions := 0, padding := 0,
    regions := List.replicate VHOST_CLIENT_VRING_NUM vhostUserMemoryRegion.zero,
    fds := List.replicate VHOST_CLIENT_VRING_NUM 0 }

def vhostUserClient.zero : vhostUserClient :=
  { sockPath := "", conn := none, cfd := 0 }

/-- The composite literal `endpoint{}`. -/
def endpoint.zero : endpoint :=
  { dispatcher := none, client := vhostUserClient.zero,
    memory := vhostUserMemory.zero,
    vringTable := List.replicate VIRTQUEUE_NUM vring.zero }

/-! ## `msg.go`: the control channel -/

/-- One call on the control channel, with the arguments it was given. -/
inductive ChanEvent where
  | write (msg : vhostUserMsg) (fds : List Int) (fdnum : Int)
  | read (msg : vhostUserMsg)
  deriving DecidableEq, Repr

/-- The two channel functions, whose bodies `msg.go` leaves empty. Each answers
from the history of channel calls made before it. `vhostUserRead` is given the
message it is to fill in and returns the message after the call. -/
structure Wire where
  vhostUserWrite : List ChanEvent → endpoint → vhostUserMsg → List Int → Int → Option Error
  vhostUserRead : List ChanEvent → endpoint → vhostUserMsg → vhostUserMsg × Option Error

/-- `vhostUserOneTimeRequest`. -/
def vhostUserOneTimeRequest (req : Nat) : Bool :=
  if req = VHOST_USER_SET_OWNER then true
  else if req = VHOST_USER_RESET_OWNER then true
  else if req = VHOST_USER_SET_MEM_TABLE then true
  else if req = VHOST_USER_GET_QUEUE_NUM then true
  else if req = VHOST_USER_NET_SET_MTU then true
  else false

/-- The load `*((*uint64)(unsafe.Pointer(&msg.payload)))`: the eight bytes at
the start of the payload read as one 64-bit word in the byte order of the
host, which is little-endian on the platforms gVisor builds for. -/
def loadU64 (payload : List Nat) : Nat :=
  ((List.range 8).map (fun i => (payload.getD i 0 % 256) * 256 ^ i)).sum

/-- The composite literal `vhostUserMsg{request: req, flags: VHOST_USER_VERSION}`
that `vhostUserGetU64` starts from; the fields left out are zero. -/
def requestMsg (req : Nat) : vhostUserMsg :=
  { request := req, flags := VHOST_USER_VERSION, size := 0,
    payload := List.replicate MAX_PAYLOAD_SIZE 0 }

/-- `vhostUserGetU64`. Takes the channel history and returns the value, the
error and the history extended by the calls it made. -/
def vhostUserGetU64 (w : Wire) (hist : List ChanEvent) (ep : endpoint) (idx : Int)
    (req : Nat) : (Nat × Option Error) × List ChanEvent :=
  let msg : vhostUserMsg := requestMsg req
  if vhostUserOneTimeRequest req && idx != 0 then
    ((0, none), hist)
  else
    let hist1 := hist ++ [ChanEvent.write msg [] 0]
    match w.vhostUserWrite hist ep msg [] 0 with
    | some err => ((0, some (Error.writeRequestFailed req err)), hist1)
    | none =>
      let hist2 := hist1 ++ [ChanEvent.read msg]
      match w.vhostUserRead hist1 ep msg with
      | (_, some err) => ((0, some (Error.readResponseFailed req err)), hist2)
      | (msg, none) =>
        if msg.request != req then
          ((0, some (Error.responseTypeMismatch req msg.request)), hist2)
        else if msg.size != 8 then
          ((0, some (Error.responseSizeMismatch 8 msg.size)), hist2)
        else
          ((loadU64 msg.payload, none), hist2)

/-- `endpoint.vhostUserGetFeatures`. -/
def vhostUserGetFeatures (w : Wire) (hist : List ChanEvent) (ep : endpoint) (idx : Int) :
    (Nat × Option Error) × List ChanEvent :=
  vhostUserGetU64 w hist ep idx VHOST_USER_GET_FEATURES

/-! ## `endpoint.go`: construction -/

/-- One call `New` (or `initVhostClient` for it) makes out of the package or to
a function the sources do not define, with its arguments and whether it
returned a nil error. -/
inductive Step where
  | ResolveUnixAddr (path : String) (ok : Bool)
  | DialUnix (addr : Nat) (ok : Bool)
  | File (conn : Nat) (ok : Bool)
  | initShmFd (size : Nat) (ok : Bool)
  | vhostUserSetMemTable (vum : vhostUserMemory) (ok : Bool)
  | initVring (region : vhostUserMemoryRegion) (fd : Int) (ok : Bool)
  | vhostUserSetVring (vr : vring) (i : Nat) (ok : Bool)
  | RegisterLinkEndpoint (ep : endpoint)
  deriving DecidableEq, Repr

/-- What `initShmFd` returns: `fd, size, offset, addr, err`. -/
structure ShmResult where
  fd : Int
  size : Nat
  offset : Nat
  addr : Nat
  err : Option Error
  deriving DecidableEq, Repr

/-- The collaborators of `New`: the `net` calls of `initVhostClient`, the
helpers `endpoint.go` calls without defining them, and the registration with
the stack. Each effectful one answers from the history of earlier calls.
`File` stands for `c.File()` followed by `cf.Fd()`. -/
structure Host where
  ResolveUnixAddr : List Step → String → Nat × Option Error
  DialUnix : List Step → Nat → Nat × Option Error
  File : List Step → Nat → Int × Option Error
  bufSizeFromMTU : Nat → Nat
  getMemSize : Nat → Nat
  initShmFd : List Step → Nat → ShmResult
  vhostUserSetMemTable : List Step → vhostUserMemory → Option Error
  initVring : List Step → vhostUserMemoryRegion → Int → vring × Option Error
  vhostUserSetVring : List Step → vring → Nat → Option Error
  RegisterLinkEndpoint : List Step → endpoint → Nat × Option Error

/-- `initVhostClient`. -/
def initVhostClient (h : Host) (hist : List Step) (path : String) :
    (vhostUserClient × Option Error) × List Step :=
  let client := vhostUserClient.zero
  match h.ResolveUnixAddr hist path with
  | (_, some err) =>
    ((client, some (Error.resolveFailed path err)), hist ++ [Step.ResolveUnixAddr path false])
  | (addr, none) =>
    let hist1 := hist ++ [Step.ResolveUnixAddr path true]
    let client := { client with sockPath := path }
    match h.DialUnix hist1 addr with
    | (_, some err) =>
      ((client, some (Error.dialFailed path err)), hist1 ++ [Step.DialUnix addr false])
    | (c, none) =>
      let hist2 := hist1 ++ [Step.DialUnix addr true]
      let client := { client with conn := some c }
      match h.File hist2 c with
      | (_, some err) =>
        ((client, some (Error.connFileFailed err)), hist2 ++ [Step.File c false])
      | (fd, none) =>
        (({ client with cfd := fd }, none), hist2 ++ [Step.File c true])

/-- The first loop of `New`, `for i := 0; i < vum.nregions; i++`, with `k`
iterations still to run from index `i`. -/
def shmLoop (h : Host) (mem_size : Nat) :
    Nat → Nat → vhostUserMemory → List Step → Except Error vhostUserMemory × List Step
  | 0, _, vum, hist => (Except.ok vum, hist)
  | k + 1, i, vum, hist =>
    let r := h.initShmFd hist mem_size
    match r.err with
    | some err => (Except.error (Error.initShmFailed err), hist ++ [Step.initShmFd mem_size false])
    | none =>
      let vum := { vum with fds := vum.fds.set i r.fd }
      let mr : vhostUserMemoryRegion :=
        { guestPhysAddr := r.addr, memorySize := r.size,
          userspaceAddr := r.addr, mmapOffset := r.offset }
      let vum := { vum with regions := vum.regions.set i mr }
      shmLoop h mem_size k (i + 1) vum (hist ++ [Step.initShmFd mem_size true])

/-- The second loop of `New`, over the same index range, with `k` iterations
still to run from index `i`. -/
def vringLoop (h : Host) (vum : vhostUserMemory) :
    Nat → Nat → endpoint → List Step → Except Error endpoint × List Step
  | 0, _, ep, hist => (Except.ok ep, hist)
  | k + 1, i, ep, hist =>
    let region := vum.regions.getD i vhostUserMemoryRegion.zero
    let fd := vum.fds.getD i 0
    match h.initVring hist region fd with
    | (_, some err) =>
      (Except.error (Error.initVringFailed err), hist ++ [Step.initVring region fd false])
    | (vr, none) =>
      let hist1 := hist ++ [Step.initVring region fd true]
      let ep := { ep with vringTable := ep.vringTable.set i vr }
      match h.vhostUserSetVring hist1 vr i with
      | some err =>
        (Except.error (Error.setVringFailed err), hist1 ++ [Step.vhostUserSetVring vr i false])
      | none => vringLoop h vum k (i + 1) ep (hist1 ++ [Step.vhostUserSetVring vr i true])

/-- `New`. Returns the endpoint ID (`none` for the `nil` of the error
returns), the error, and the history of the calls it made. -/
def New (h : Host) (opt : Options) : (Option Nat × Option Error) × List Step :=
  let ep := endpoint.zero
  match initVhostClient h [] opt.SocketPath with
  | ((_, some err), hist) => ((none, some (Error.initClientFailed err)), hist)
  | ((client, none), hist) =>
    let ep := { ep with client := client }
    let buf_size := h.bufSizeFromMTU opt.MTU
    let mem_size := h.getMemSize buf_size
    let vum := { vhostUserMemory.zero with nregions := VIRTQUEUE_NUM }
    match shmLoop h mem_size vum.nregions 0 vum hist with
    | (Except.error err, hist) => ((none, some err), hist)
    | (Except.ok vum, hist) =>
      let ep := { ep with memory := vum }
      match h.vhostUserSetMemTable hist vum with
      | some err =>
        ((none, some (Error.setMemTableFailed err)),
          hist ++ [Step.vhostUserSetMemTable vum false])
      | none =>
        match vringLoop h vum vum.nregions 0 ep
            (hist ++ [Step.vhostUserSetMemTable vum true]) with
        | (Except.error err, hist) => ((none, some err), hist)
        | (Except.ok _, hist) =>
          let r := h.RegisterLinkEndpoint hist endpoint.zero
          ((some r.1, r.2), hist ++ [Step.RegisterLinkEndpoint endpoint.zero])

/-! ## `endpoint.go`: the link-endpoint methods -/

/-- `endpoint.Attach`. -/
def Attach (e : endpoint) (dispatcher : Option Nat) : endpoint :=
  { e with dispatcher := dispatcher }

/-- `endpoint.IsAttached`. -/
def IsAttached (e : endpoint) : Bool :=
  e.dispatcher != none

/-- A `buffer.VectorisedView`: the views and the recorded total size. -/
structure VectorisedView where
  views : List (List Nat)
  size : Nat
  deriving DecidableEq, Repr

/-- `buffer.NewVectorisedView`. -/
def NewVectorisedView (size : Nat) (views : List (List Nat)) : VectorisedView :=
  { views := views, size := size }

/-- `endpoint.WritePacket`. `hdr` is the view of the prependable header. Returns
the endpoint after the call and the `*tcpip.Error` (`none` for nil). -/
def WritePacket (e : endpoint) (hdr : List Nat) (payload : VectorisedView)
    (_protocol : Nat) : endpoint × Option Error :=
  let views := [hdr]
  let views := views ++ payload.views
  let _vv := NewVectorisedView ((views.getD 0 []).length + payload.size) views
  (e, none)

/-! ## Wire format of the spec and sample environments -/

/-- The spec's wire format for a 64-bit payload: eight bytes, little-endian. -/
def encodeU64LE (v : Nat) : List Nat :=
  (List.range 8).map (fun i => v / 256 ^ i % 256)

/-- A peer that accepts every write and answers every read with `resp`. -/
def replyWire (resp : vhostUserMsg) : Wire :=
  { vhostUserWrite := fun _ _ _ _ _ => none,
    vhostUserRead := fun _ _ _ => (resp, none) }

/-- A response of kind `req` carrying the word `v`. -/
def u64Reply (req v : Nat) : vhostUserMsg :=
  { request := req, flags := VHOST_USER_VERSION, size := 8,
    payload := encodeU64LE v ++ List.replicate (MAX_PAYLOAD_SIZE - 8) 0 }

/-- Whether a recorded call returned an error. The registration with the stack
is the last call of `New` and not one of its construction steps. -/
def Step.failed : Step → Bool
  | Step.ResolveUnixAddr _ ok => !ok
  | Step.DialUnix _ ok => !ok
  | Step.File _ ok => !ok
  | Step.initShmFd _ ok => !ok
  | Step.vhostUserSetMemTable _ ok => !ok
  | Step.initVring _ _ ok => !ok
  | Step.vhostUserSetVring _ _ ok => !ok
  | Step.RegisterLinkEndpoint _ => false

/-- Whether a recorded call is the registration of an endpoint with the stack. -/
def Step.isRegister : Step → Bool
  | Step.RegisterLinkEndpoint _ => true
  | _ => false

/-- A history in which every call succeeded and none is a registration. -/
def cleanHist (hist : List Step) : Bool :=
  hist.all (fun t => !t.failed && !t.isRegister)

/-- A history that ends in a failed call, clean before it. -/
def FailedHist (hist : List Step) : Prop :=
  ∃ pre s, hist = pre ++ [s] ∧ s.failed = true ∧ s.isRegister = false ∧ cleanHist pre = true

/-- A host on which every call succeeds. -/
def okHost : Host :=
  { ResolveUnixAddr := fun _ _ => (11, none),
    DialUnix := fun _ _ => (12, none),
    File := fun _ _ => (7, none),
    bufSizeFromMTU := fun mtu => mtu + 12,
    getMemSize := fun b => b * 256,
    initShmFd := fun hist _ =>
      { fd := Int.ofNat (20 + hist.length), size := 4096, offset := 0,
        addr := 65536 * hist.length, err := none },
    vhostUserSetMemTable := fun _ _ => none,
    initVring := fun _ _ fd =>
      ({ vring.zero with
          kickfd := fd, num := 256,
          desc := some [], avail := some { flags := 0, idx := 0, ring := [] },
          used := some { flags := 0, idx := 0, ring := [] } }, none),
    vhostUserSetVring := fun _ _ _ => none,
    RegisterLinkEndpoint := fun _ _ => (1, none) }

/-- A host on which the second shared-memory allocation fails and everything
else succeeds. -/
def shmFailHost : Host :=
  { okHost with
    initShmFd := fun hist m =>
      if hist.length < 4 then okHost.initShmFd hist m
      else { fd := 0, size := 0, offset := 0, addr := 0, err := some (Error.external 12) } }

/-- Sample options: MTU 1500 and a socket path. -/
def sampleOptions : Options :=
  { MTU := 1500, Addresses := "", SocketPath := "/tmp/vhost.sock" }

/-- A configured vring with an empty avail ring. -/
def sampleVring : vring :=
  { vring.zero with
    num := 256, desc := some [],
    avail := some { flags := 0, idx := 0, ring := [] },
    used := some { flags := 0, idx := 0, ring := [] } }

/-- An endpoint with a configured RX and TX vring. -/
def sampleEndpoint : endpoint :=
  { endpoint.zero with vringTable := [sampleVring, sampleVring] }

end vhostuser

/-!
# File writes: `pkg/sentry/syscalls/linux/sys_write.go`

A shallow embedding of `writev`, `pwritev` and `Pwritev2`.  The results of the
file's successive write attempts and of the task's successive waits are given
as two finite scripts, consumed in order; a run that needs a result the
scripts do not hold has no result (`none`).  An `int64` is an integer, and
every `int64` addition of the source is wrapped to 64 bits.  The count of a
write attempt is a natural number (an `int64` count below `2 ^ 63`), an
`IOSequence` is the list of the bytes it covers.
-/

namespace linux

/-- The `syserror` values the file names, and any other error by its code. -/
inductive SysErr where
  | ErrWouldBlock
  | ETIMEDOUT
  | EACCES
  | EBADF
  | EINVAL
  | ESPIPE
  | EOPNOTSUPP
  | other (code : Nat)
  deriving DecidableEq, Repr

/-- What `file.Flags()` returns, as far as the file reads it. -/
structure FileFlags where
  Write : Bool
  Pwrite : Bool
  NonBlocking : Bool
  deriving DecidableEq, Repr

/-- An `*fs.File`. `SendTimeout` is `some dl` when `f.FileOperations` is a
`socket.Socket` whose `SendTimeout()` is `dl`, and `none` when the type
assertion fails. -/
structure File where
  Flags : FileFlags
  SendTimeout : Option Int
  deriving DecidableEq, Repr

/-- One call `writev`, `pwritev` or `Pwritev2` makes on the file or the task,
with its arguments and, for a write attempt or a wait, its result. -/
inductive FileEvent where
  | Writev (src : List Nat) (n : Nat) (err : Option SysErr)
  | Pwritev (src : List Nat) (offset : Int) (n : Nat) (err : Option SysErr)
  | InotifyEvent
  | EventRegister
  | EventUnregister
  | BlockWithDeadline (haveDeadline : Bool) (deadline : Int) (err : Option SysErr)
  | Block (err : Option SysErr)
  | AccountWriteSyscall (n : Int)
  | DecRef
  deriving DecidableEq, Repr

/-- An integer wrapped to the range of `int64`, as Go's `int64` addition does. -/
def wrapInt64 (x : Int) : Int :=
  (x + 2 ^ 63) % 2 ^ 64 - 2 ^ 63

/-- Modelled from the spec: `usermem.IOSequence.DropFirst64` is defined outside
the sources at hand. The spec speaks of partial-write accounting and the call
sites of shortening the source "to reflect bytes previously written": the
sequence without its first `n` bytes. -/
def DropFirst64 (src : List Nat) (n : Nat) : List Nat :=
  src.drop n

/-- The loop of `writev`, entered with the source, the count `n` of the last
attempt and the running `total`; `haveDeadline` and `deadline` do not change. -/
def writevLoop (haveDeadline : Bool) (deadline : Int) :
    List (Nat × Option SysErr) → List (Option SysErr) → List Nat → Nat → Int →
      List FileEvent → Option ((Int × Option SysErr) × List FileEvent)
  | [], _, _, _, _, _ => none
  | (n2, err) :: attempts, waits, src, n, total, hist =>
    let src := DropFirst64 src n
    let hist := hist ++ [FileEvent.Writev src n2 err]
    let total := wrapInt64 (total + n2)
    if err != some SysErr.ErrWouldBlock then
      some ((total, err), hist)
    else
      match waits with
      | [] => none
      | werr :: waits =>
        let hist := hist ++ [FileEvent.BlockWithDeadline haveDeadline deadline werr]
        match werr with
        | some e =>
          some ((total, some (if e = SysErr.ETIMEDOUT then SysErr.ErrWouldBlock else e)), hist)
        | none => writevLoop haveDeadline deadline attempts waits src n2 total hist

/-- `writev`. `deadlineAfter dl` is
`t.Kernel().MonotonicClock().Now().Add(time.Duration(dl) * time.Nanosecond)`,
computed outside the file; the zero `ktime.Time` is 0. -/
def writev (deadlineAfter : Int → Int) (f : File) (src : List Nat)
    (attempts : List (Nat × Option SysErr)) (waits : List (Option SysErr)) :
    Option ((Int × Option SysErr) × List FileEvent) :=
  match attempts with
  | [] => none
  | (n, err) :: attempts =>
    let hist := [FileEvent.Writev src n err]
    if err != some SysErr.ErrWouldBlock || f.Flags.NonBlocking then
      some (((n : Int), err), if n > 0 then hist ++ [FileEvent.InotifyEvent] else hist)
    else
      let sock : Bool × Bool × Int :=
        match f.SendTimeout with
        | some dl =>
          (decide (dl < 0) && (err == some SysErr.ErrWouldBlock), decide (dl > 0),
            if dl > 0 then deadlineAfter dl else 0)
        | none => (false, false, 0)
      if sock.1 then
        some (((n : Int), err), hist)
      else
        let hist := hist ++ [FileEvent.EventRegister]
        match writevLoop sock.2.1 sock.2.2 attempts waits src n (n : Int) hist with
        | none => none
        | some ((total, err), hist) =>
          let hist := hist ++ [FileEvent.EventUnregister]
          some ((total, err), if total > 0 then hist ++ [FileEvent.InotifyEvent] else hist)

/-- The loop of `pwritev`. -/
def pwritevLoop (offset : Int) :
    List (Nat × Option SysErr) → List (Option SysErr) → List Nat → Nat → Int →
      List FileEvent → Option ((Int × Option SysErr) × List FileEvent)
  | [], _, _, _, _, _ => none
  | (n2, err) :: attempts, waits, src, n, total, hist =>
    let src := DropFirst64 src n
    let hist := hist ++ [FileEvent.Pwritev src (wrapInt64 (offset + total)) n2 err]
    let total := wrapInt64 (total + n2)
    if err != some SysErr.ErrWouldBlock then
      some ((total, err), hist)
    else
      match waits with
      | [] => none
      | werr :: waits =>
        let hist := hist ++ [FileEvent.Block werr]
        match werr with
        | some e => some ((total, some e), hist)
        | none => pwritevLoop offset attempts waits src n2 total hist

/-- `pwritev`. -/
def pwritev (f : File) (src : List Nat) (offset : Int) (attempts : List (Nat × Option SysErr))
    (waits : List (Option SysErr)) : Option ((Int × Option SysErr) × List FileEvent) :=
  match attempts with
  | [] => none
  | (n, err) :: attempts =>
    let hist := [FileEvent.Pwritev src offset n err]
    if err != some SysErr.ErrWouldBlock || f.Flags.NonBlocking then
      some (((n : Int), err), if n > 0 then hist ++ [FileEvent.InotifyEvent] else hist)
    else
      let hist := hist ++ [FileEvent.EventRegister]
      match pwritevLoop offset attempts waits src n (n : Int) hist with
      | none => none
      | some ((total, err), hist) =>
        let hist := hist ++ [FileEvent.EventUnregister]
        some ((total, err), if total > 0 then hist ++ [FileEvent.InotifyEvent] else hist)

/-! ## `Pwritev2` -/

/-- The 64-bit two's-complement pattern of an `int`. -/
def toU64 (x : Int) : Nat :=
  (x % 2 ^ 64).toNat

/-- The `int` with a given 64-bit two's-complement pattern. -/
def ofU64 (n : Nat) : Int :=
  if n < 2 ^ 63 then (n : Int) else (n : Int) - 2 ^ 64

/-- Go's `a & b` on `int`. -/
def intAnd (a b : Int) : Int :=
  ofU64 (toU64 a &&& toU64 b)

/-- Go's `a &^ b` on `int`. -/
def intAndNot (a b : Int) : Int :=
  ofU64 (toU64 a &&& (toU64 b ^^^ (2 ^ 64 - 1)))

/-- What `Pwritev2` uses of the task and of the packages outside the file:
the conversions of a syscall argument (`Int()`, `Int64()`, `Pointer()`), the
deadline `Now().Add(dl)` of the monotonic clock, the descriptor table,
`IovecsIOSequence`, `handleIOError` (given the partial-result flag, the error,
the operation name and the file) and the constant `linux.RWF_VALID`. -/
structure Task where
  ArgInt : Nat → Int
  ArgInt64 : Nat → Int
  ArgPointer : Nat → Nat
  DeadlineAfter : Int → Int
  GetFile : Int → Option File
  IovecsIOSequence : Nat → Int → List Nat × Option SysErr
  handleIOError : Bool → Option SysErr → String → File → Option SysErr
  RWF_VALID : Int

/-- `Pwritev2`. `args` holds the six argument registers. Returns the `uintptr`,
the `*kernel.SyscallControl` (always nil), the error, and the calls made;
the deferred `file.DecRef()` is the last call of every path that has a file. -/
def Pwritev2 (t : Task) (args : List Nat) (attempts : List (Nat × Option SysErr))
    (waits : List (Option SysErr)) :
    Option ((Nat × Option Nat × Option SysErr) × List FileEvent) :=
  let fd := t.ArgInt (args.getD 0 0)
  let addr := t.ArgPointer (args.getD 1 0)
  let iovcnt := t.ArgInt (args.getD 2 0)
  let offset := t.ArgInt64 (args.getD 3 0)
  let flags := t.ArgInt (args.getD 5 0)
  if intAnd (t.ArgInt (args.getD 4 0)) 0x4 == 1 then
    some ((0, none, some SysErr.EACCES), [])
  else
    match t.GetFile fd with
    | none => some ((0, none, some SysErr.EBADF), [])
    | some file =>
      if offset < -1 then
        some ((0, none, some SysErr.EINVAL), [FileEvent.DecRef])
      else if offset > -1 && !file.Flags.Pwrite then
        some ((0, none, some SysErr.ESPIPE), [FileEvent.DecRef])
      else if intAndNot flags t.RWF_VALID != 0 then
        some ((toU64 flags, none, some SysErr.EOPNOTSUPP), [FileEvent.DecRef])
      else if !file.Flags.Write then
        some ((0, none, some SysErr.EBADF), [FileEvent.DecRef])
      else
        match t.IovecsIOSequence addr iovcnt with
        | (_, some err) => some ((0, none, some err), [FileEvent.DecRef])
        | (src, none) =>
          if offset == -1 then
            match writev t.DeadlineAfter file src attempts waits with
            | none => none
            | some ((n, err), hist) =>
              some ((toU64 n, none, t.handleIOError (n != 0) err "pwritev2" file),
                hist ++ [FileEvent.AccountWriteSyscall n, FileEvent.DecRef])
          else
            match pwritev file src offset attempts waits with
            | none => none
            | some ((n, err), hist) =>
              some ((toU64 n, none, t.handleIOError (n != 0) err "pwritev2" file),
                hist ++ [FileEvent.AccountWriteSyscall n, FileEvent.DecRef])

/-- `Pwritev2` with the check of `args[4]` left out and nothing else changed:
what the function would be if that check were absent. -/
def Pwritev2WithoutCheck (t : Task) (args : List Nat) (attempts : List (Nat × Option SysErr))
    (waits : List (Option SysErr)) :
    Option ((Nat × Option Nat × Option SysErr) × List FileEvent) :=
  let fd := t.ArgInt (args.getD 0 0)
  let addr := t.ArgPointer (args.getD 1 0)
  let iovcnt := t.ArgInt (args.getD 2 0)
  let offset := t.ArgInt64 (args.getD 3 0)
  let flags := t.ArgInt (args.getD 5 0)
  match t.GetFile fd with
  | none => some ((0, none, some SysErr.EBADF), [])
  | some file =>
    if offset < -1 then
      some ((0, none, some SysErr.EINVAL), [FileEvent.DecRef])
    else if offset > -1 && !file.Flags.Pwrite then
      some ((0, none, some SysErr.ESPIPE), [FileEvent.DecRef])
    else if intAndNot flags t.RWF_VALID != 0 then
      some ((toU64 flags, none, some SysErr.EOPNOTSUPP), [FileEvent.DecRef])
    else if !file.Flags.Write then
      some ((0, none, some SysErr.EBADF), [FileEvent.DecRef])
    else
      match t.IovecsIOSequence addr iovcnt with
      | (_, some err) => some ((0, none, some err), [FileEvent.DecRef])
      | (src, none) =>
        if offset == -1 then
          match writev t.DeadlineAfter file src attempts waits with
          | none => none
          | some ((n, err), hist) =>
            some ((toU64 n, none, t.handleIOError (n != 0) err "pwritev2" file),
              hist ++ [FileEvent.AccountWriteSyscall n, FileEvent.DecRef])
        else
          match pwritev file src offset attempts waits with
          | none => none
          | some ((n, err), hist) =>
            some ((toU64 n, none, t.handleIOError (n != 0) err "pwritev2" file),
              hist ++ [FileEvent.AccountWriteSyscall n, FileEvent.DecRef])

/-! ## Reading a history -/

/-- The byte count of a write attempt; other calls count for nothing. -/
def FileEvent.count : FileEvent → Nat
  | FileEvent.Writev _ n _ => n
  | FileEvent.Pwritev _ _ n _ => n
  | _ => 0

/-- The sum of the counts of all write attempts in a history. -/
def sumCounts (hist : List FileEvent) : Nat :=
  (hist.map FileEvent.count).sum

/-- The result of a write attempt; `none` for any other call. -/
def FileEvent.result : FileEvent → Option (Nat × Option SysErr)
  | FileEvent.Writev _ n err => some (n, err)
  | FileEvent.Pwritev _ _ n err => some (n, err)
  | _ => none

/-- The results of the write attempts of a history, in order. -/
def writeResults (hist : List FileEvent) : List (Nat × Option SysErr) :=
  hist.filterMap FileEvent.result

/-- The result of a wait; `none` for any other call. -/
def FileEvent.waitResult : FileEvent → Option (Option SysErr)
  | FileEvent.BlockWithDeadline _ _ err => some err
  | FileEvent.Block err => some err
  | _ => none

/-- The results of the waits of a history, in order. -/
def waitResults (hist : List FileEvent) : List (Option SysErr) :=
  hist.filterMap FileEvent.waitResult

/-- A write attempt made after `done` bytes were written is consistent with
the original source `src0` and offset `offset0` when it is issued on `src0`
without its first `done` bytes and, for `Pwritev`, at the `int64` sum of
`offset0` and `done`. -/
def eventOK (src0 : List Nat) (offset0 : Int) (done : Nat) : FileEvent → Prop
  | FileEvent.Writev s _ _ => s = src0.drop done
  | FileEvent.Pwritev s off _ _ => s = src0.drop done ∧ off = wrapInt64 (offset0 + done)
  | _ => True

/-- Every write attempt of a history is consistent with what was written
before it. -/
def RetryOK (src0 : List Nat) (offset0 : Int) (hist : List FileEvent) : Prop :=
  ∀ pre x post, hist = pre ++ x :: post → eventOK src0 offset0 (sumCounts pre) x

/-- How a run that entered the retry loop ended, read off the results `made`
of its write attempts and `waited` of its waits. Every attempt before the last
returned "would block" and every wait before the last returned nil. Either the
last attempt returned something else, which is the error returned, after one
wait for each retry before it; or the last attempt too returned "would block"
and the wait after it failed with `e`, which is the error returned, `ETIMEDOUT`
turned into "would block" when `timeoutAsWouldBlock` is set. -/
def LoopEnd (timeoutAsWouldBlock : Bool) (made : List (Nat × Option SysErr))
    (waited : List (Option SysErr)) (err : Option SysErr) : Prop :=
  ∃ init last, made = init ++ [last] ∧ init ≠ [] ∧
    (∀ a ∈ init, a.2 = some SysErr.ErrWouldBlock) ∧
    ((last.2 ≠ some SysErr.ErrWouldBlock ∧ waited = List.replicate (init.length - 1) none ∧
        err = last.2) ∨
      (last.2 = some SysErr.ErrWouldBlock ∧
        ∃ e, waited = List.replicate (init.length - 1) none ++ [some e] ∧
          err = some (if timeoutAsWouldBlock = true ∧ e = SysErr.ETIMEDOUT
            then SysErr.ErrWouldBlock else e)))

/-- How a run of `writev` (`isWritev`) or `pwritev` ended. Either one attempt
was made and its error returned, because it did not return "would block", or
the file is non-blocking, or (for `writev`) the file is a socket with a
negative send timeout; or none of these held for the first attempt and the run
went through the retry loop. -/
def RunEnd (isWritev : Bool) (f : File) (made : List (Nat × Option SysErr))
    (waited : List (Option SysErr)) (err : Option SysErr) : Prop :=
  (∃ a, made = [a] ∧ waited = [] ∧ err = a.2 ∧
    (a.2 ≠ some SysErr.ErrWouldBlock ∨ f.Flags.NonBlocking = true ∨
      (isWritev = true ∧ ∃ dl, f.SendTimeout = some dl ∧ dl < 0))) ∨
  (f.Flags.NonBlocking = false ∧
    (isWritev = true → ∀ dl, f.SendTimeout = some dl → ¬ dl < 0) ∧
    LoopEnd isWritev made waited err)

/-! ## Sample file and scripts -/

/-- A blocking socket with a send timeout of 5000 ns. -/
def sampleSocket : File :=
  { Flags := { Write := true, Pwrite := true, NonBlocking := false },
    SendTimeout := some 5000 }

/-- A task whose descriptor 3 is `sampleSocket`; the argument conversions are
those of a 64-bit register, the clock stands at 1000, and `handleIOError`
hides the error of a partial write and hands back any other. -/
def sampleTask : Task :=
  { ArgInt := fun v => if v % 2 ^ 32 < 2 ^ 31 then (v % 2 ^ 32 : Nat) else (v % 2 ^ 32 : Nat) - 2 ^ 32,
    ArgInt64 := fun v => if v % 2 ^ 64 < 2 ^ 63 then (v % 2 ^ 64 : Nat) else (v % 2 ^ 64 : Nat) - 2 ^ 64,
    ArgPointer := fun v => v,
    DeadlineAfter := fun dl => 1000 + dl,
    GetFile := fun fd => if fd = 3 then some sampleSocket else none,
    IovecsIOSequence := fun _ _ => ([1, 2, 3, 4, 5, 6, 7, 8, 9, 10], none),
    handleIOError := fun partialResult err _ _ => if partialResult then none else err,
    RWF_VALID := 7 }

/-- A script of three attempts writing 3, 4 and 3 bytes, the first two of
which would block. -/
def sampleAttempts : List (Nat × Option SysErr) :=
  [(3, some SysErr.ErrWouldBlock), (4, some SysErr.ErrWouldBlock), (3, none)]

/-- What `writev` returns and does on `sampleSocket`, a ten-byte source and
`sampleAttempts`, every wait succeeding. -/
def sampleWritevRun : (Int × Option SysErr) × List FileEvent :=
  ((10, none),
    [FileEvent.Writev [1, 2, 3, 4, 5, 6, 7, 8, 9, 10] 3 (some SysErr.ErrWouldBlock),
      FileEvent.EventRegister,
      FileEvent.Writev [4, 5, 6, 7, 8, 9, 10] 4 (some SysErr.ErrWouldBlock),
      FileEvent.BlockWithDeadline true 6000 none,
      FileEvent.Writev [8, 9, 10] 3 none,
      FileEvent.EventUnregister, FileEvent.InotifyEvent])

/-- What `pwritev` returns and does at offset 100 on the same input. -/
def samplePwritevRun : (Int × Option SysErr) × List FileEvent :=
  ((10, none),
    [FileEvent.Pwritev [1, 2, 3, 4, 5, 6, 7, 8, 9, 10] 100 3 (some SysErr.ErrWouldBlock),
      FileEvent.EventRegister,
      FileEvent.Pwritev [4, 5, 6, 7, 8, 9, 10] 103 4 (some SysErr.ErrWouldBlock),
      FileEvent.Block none,
      FileEvent.Pwritev [8, 9, 10] 107 3 none,
      FileEvent.EventUnregister, FileEvent.InotifyEvent])

end linux

namespace vhostuser

/-! ## Properties of `msg.go` -/

theorem oneTime_iff (req : Nat) :
    vhostUserOneTimeRequest req = true ↔
      (req = 3 ∨ req = 4 ∨ req = 5 ∨ req = 17 ∨ req = 20) := by
  unfold vhostUserOneTimeRequest VHOST_USER_SET_OWNER VHOST_USER_RESET_OWNER
    VHOST_USER_SET_MEM_TABLE VHOST_USER_GET_QUEUE_NUM VHOST_USER_NET_SET_MTU
  constructor
  · intro h
    split_ifs at h <;> simp_all
  · rintro (h | h | h | h | h) <;> subst h <;> rfl

/-- When the request is skipped, nothing is done. -/
theorem getU64_skip (w : Wire) (hist : List ChanEvent) (ep : endpoint) (idx : Int)
    (req : Nat) (h1 : vhostUserOneTimeRequest req = true) (h2 : idx ≠ 0) :
    vhostUserGetU64 w hist ep idx req = ((0, none), hist) := by
  unfold vhostUserGetU64
  simp [h1, h2]

/-- When the request is not skipped, the first thing done is the write of the
request message. -/
theorem getU64_sent (w : Wire) (hist : List ChanEvent) (ep : endpoint) (idx : Int)
    (req : Nat) (h : vhostUserOneTimeRequest req = false ∨ idx = 0) :
    ∃ tail, (vhostUserGetU64 w hist ep idx req).2 =
      hist ++ ChanEvent.write (requestMsg req) [] 0 :: tail := by
  have hc : (vhostUserOneTimeRequest req && idx != 0) = false := by
    rcases h with h | h <;> simp [h]
  unfold vhostUserGetU64
  simp only [hc]
  cases hw : w.vhostUserWrite hist ep (requestMsg req) [] 0 with
  | some err => exact ⟨[], by simp⟩
  | none =>
    rcases hr : w.vhostUserRead (hist ++ [ChanEvent.write (requestMsg req) [] 0]) ep
      (requestMsg req) with ⟨m, e⟩
    cases e with
    | some err => exact ⟨[ChanEvent.read (requestMsg req)], by simp⟩
    | none =>
      refine ⟨[ChanEvent.read (requestMsg req)], ?_⟩
      simp only [Bool.false_eq_true, if_false]
      split_ifs <;> simp

/-- The run of a request that is sent, written, and answered by `resp`. -/
theorem getU64_answered (w : Wire) (hist : List ChanEvent) (ep : endpoint) (idx : Int)
    (req : Nat) (resp : vhostUserMsg)
    (h : vhostUserOneTimeRequest req = false ∨ idx = 0)
    (hw : w.vhostUserWrite hist ep (requestMsg req) [] 0 = none)
    (hr : w.vhostUserRead (hist ++ [ChanEvent.write (requestMsg req) [] 0]) ep
      (requestMsg req) = (resp, none)) :
    vhostUserGetU64 w hist ep idx req =
      (if resp.request != req then (0, some (Error.responseTypeMismatch req resp.request))
       else if resp.size != 8 then (0, some (Error.responseSizeMismatch 8 resp.size))
       else (loadU64 resp.payload, none),
       hist ++ [ChanEvent.write (requestMsg req) [] 0, ChanEvent.read (requestMsg req)]) := by
  have hc : (vhostUserOneTimeRequest req && idx != 0) = false := by
    rcases h with h | h <;> simp [h]
  unfold vhostUserGetU64
  simp only [hc, hw, hr]
  simp only [Bool.false_eq_true, if_false]
  split_ifs <;> simp

theorem loadU64_eq (p : List Nat) :
    loadU64 p =
      p.getD 0 0 % 256 + p.getD 1 0 % 256 * 2 ^ 8 + p.getD 2 0 % 256 * 2 ^ 16
        + p.getD 3 0 % 256 * 2 ^ 24 + p.getD 4 0 % 256 * 2 ^ 32
        + p.getD 5 0 % 256 * 2 ^ 40 + p.getD 6 0 % 256 * 2 ^ 48
        + p.getD 7 0 % 256 * 2 ^ 56 := by
  unfold loadU64
  simp [List.range_succ]
  ring

theorem loadU64_lt (p : List Nat) : loadU64 p < 2 ^ 64 := by
  rw [loadU64_eq]
  have h0 := Nat.mod_lt (p.getD 0 0) (show 256 > 0 by decide)
  have h1 := Nat.mod_lt (p.getD 1 0) (show 256 > 0 by decide)
  have h2 := Nat.mod_lt (p.getD 2 0) (show 256 > 0 by decide)
  have h3 := Nat.mod_lt (p.getD 3 0) (show 256 > 0 by decide)
  have h4 := Nat.mod_lt (p.getD 4 0) (show 256 > 0 by decide)
  have h5 := Nat.mod_lt (p.getD 5 0) (show 256 > 0 by decide)
  have h6 := Nat.mod_lt (p.getD 6 0) (show 256 > 0 by decide)
  have h7 := Nat.mod_lt (p.getD 7 0) (show 256 > 0 by decide)
  norm_num
  omega

theorem loadU64_encode (v : Nat) (rest : List Nat) (hv : v < 2 ^ 64) :
    loadU64 (encodeU64LE v ++ rest) = v := by
  rw [loadU64_eq]
  simp [encodeU64LE, List.range_succ]
  omega

/-- C1: `vhostUserGetU64` makes no call on the control channel and returns
`(0, nil)` exactly when the request kind is one of the five one-time kinds
SET_OWNER (3), RESET_OWNER (4), SET_MEM_TABLE (5), GET_QUEUE_NUM (17),
NET_SET_MTU (20) and the queue index is not 0; `vhostUserOneTimeRequest` is
true for exactly those five kinds. -/
theorem C1_one_time_request_skipped (w : Wire) (hist : List ChanEvent) (ep : endpoint)
    (idx : Int) (req : Nat) :
    (((vhostUserGetU64 w hist ep idx req).2 = hist ∧
        (vhostUserGetU64 w hist ep idx req).1 = (0, none)) ↔
      ((req = 3 ∨ req = 4 ∨ req = 5 ∨ req = 17 ∨ req = 20) ∧ idx ≠ 0)) ∧
    (vhostUserOneTimeRequest req = true ↔
      (req = 3 ∨ req = 4 ∨ req = 5 ∨ req = 17 ∨ req = 20)) ∧
    [VHOST_USER_SET_OWNER, VHOST_USER_RESET_OWNER, VHOST_USER_SET_MEM_TABLE,
      VHOST_USER_GET_QUEUE_NUM, VHOST_USER_NET_SET_MTU] = [3, 4, 5, 17, 20] := by
  refine ⟨?_, oneTime_iff req, rfl⟩
  rw [← oneTime_iff]
  constructor
  · rintro ⟨hlog, _⟩
    by_contra hne
    have hs : vhostUserOneTimeRequest req = false ∨ idx = 0 := by
      by_cases h1 : vhostUserOneTimeRequest req = true
      · right
        by_contra h2
        exact hne ⟨h1, h2⟩
      · left
        simpa using h1
    obtain ⟨tail, ht⟩ := getU64_sent w hist ep idx req hs
    rw [ht] at hlog
    simp at hlog
  · rintro ⟨h1, h2⟩
    rw [getU64_skip w hist ep idx req h1 h2]
    exact ⟨rfl, rfl⟩

/-- C2: when a request is sent and the read yields a response whose kind
differs from the request kind or whose payload size is not 8, `vhostUserGetU64`
returns an error with value 0, and the write and the read are the only calls
it makes on the control channel. -/
theorem C2_mismatched_response_rejected (w : Wire) (hist : List ChanEvent) (ep : endpoint)
    (idx : Int) (req : Nat) (resp : vhostUserMsg)
    (hsent : vhostUserOneTimeRequest req = false ∨ idx = 0)
    (hw : w.vhostUserWrite hist ep (requestMsg req) [] 0 = none)
    (hr : w.vhostUserRead (hist ++ [ChanEvent.write (requestMsg req) [] 0]) ep
      (requestMsg req) = (resp, none))
    (hbad : resp.request ≠ req ∨ resp.size ≠ 8) :
    (vhostUserGetU64 w hist ep idx req).1.1 = 0 ∧
    (vhostUserGetU64 w hist ep idx req).1.2 ≠ none ∧
    (vhostUserGetU64 w hist ep idx req).2 =
      hist ++ [ChanEvent.write (requestMsg req) [] 0, ChanEvent.read (requestMsg req)] := by
  rw [getU64_answered w hist ep idx req resp hsent hw hr]
  refine ⟨?_, ?_, rfl⟩
  · by_cases h1 : resp.request = req
    · have h2 : resp.size ≠ 8 := by
        rcases hbad with h | h
        · exact absurd h1 h
        · exact h
      simp [h1, h2]
    · simp [h1]
  · by_cases h1 : resp.request = req
    · have h2 : resp.size ≠ 8 := by
        rcases hbad with h | h
        · exact absurd h1 h
        · exact h
      simp [h1, h2]
    · simp [h1]

/-- Witness for C2: a GET_FEATURES request answered with a SET_FEATURES
response. -/
theorem C2_mismatched_response_rejected_witness :
    (vhostUserGetU64 (replyWire (u64Reply VHOST_USER_SET_FEATURES 5)) [] endpoint.zero 0
        VHOST_USER_GET_FEATURES).1.1 = 0 ∧
    (vhostUserGetU64 (replyWire (u64Reply VHOST_USER_SET_FEATURES 5)) [] endpoint.zero 0
        VHOST_USER_GET_FEATURES).1.2 ≠ none ∧
    (vhostUserGetU64 (replyWire (u64Reply VHOST_USER_SET_FEATURES 5)) [] endpoint.zero 0
        VHOST_USER_GET_FEATURES).2 =
      [] ++ [ChanEvent.write (requestMsg VHOST_USER_GET_FEATURES) [] 0,
        ChanEvent.read (requestMsg VHOST_USER_GET_FEATURES)] :=
  C2_mismatched_response_rejected (replyWire (u64Reply VHOST_USER_SET_FEATURES 5)) []
    endpoint.zero 0 VHOST_USER_GET_FEATURES (u64Reply VHOST_USER_SET_FEATURES 5)
    (Or.inr rfl) rfl rfl (Or.inl (by decide))

/-- C3: when a request is sent, the write and the read succeed and the
response has the request's kind and payload size 8, `vhostUserGetU64` returns
no error and the 64-bit value of the first eight payload bytes in little-endian
order; so `vhostUserGetFeatures` returns the feature word the peer encoded. -/
theorem C3_value_is_little_endian_payload (w : Wire) (hist : List ChanEvent) (ep : endpoint)
    (idx : Int) (req : Nat) (resp : vhostUserMsg)
    (hsent : vhostUserOneTimeRequest req = false ∨ idx = 0)
    (hw : w.vhostUserWrite hist ep (requestMsg req) [] 0 = none)
    (hr : w.vhostUserRead (hist ++ [ChanEvent.write (requestMsg req) [] 0]) ep
      (requestMsg req) = (resp, none))
    (hkind : resp.request = req) (hsize : resp.size = 8) :
    (vhostUserGetU64 w hist ep idx req).1.2 = none ∧
    (vhostUserGetU64 w hist ep idx req).1.1 =
      resp.payload.getD 0 0 % 256 + resp.payload.getD 1 0 % 256 * 2 ^ 8
        + resp.payload.getD 2 0 % 256 * 2 ^ 16 + resp.payload.getD 3 0 % 256 * 2 ^ 24
        + resp.payload.getD 4 0 % 256 * 2 ^ 32 + resp.payload.getD 5 0 % 256 * 2 ^ 40
        + resp.payload.getD 6 0 % 256 * 2 ^ 48 + resp.payload.getD 7 0 % 256 * 2 ^ 56 ∧
    (vhostUserGetU64 w hist ep idx req).1.1 < 2 ^ 64 ∧
    (∀ v rest, v < 2 ^ 64 → resp.payload = encodeU64LE v ++ rest →
      req = VHOST_USER_GET_FEATURES →
      (vhostUserGetFeatures w hist ep idx).1 = (v, none)) := by
  have hrun := getU64_answered w hist ep idx req resp hsent hw hr
  simp only [hkind, hsize, bne_self_eq_false, Bool.false_eq_true, if_false] at hrun
  refine ⟨by rw [hrun], by rw [hrun]; exact loadU64_eq _, by rw [hrun]; exact loadU64_lt _, ?_⟩
  intro v rest hv hp hreq
  unfold vhostUserGetFeatures
  rw [← hreq, hrun, hp, loadU64_encode v rest hv]

/-- Witness for C3: the peer answers GET_FEATURES on queue 1 with the feature
word `0x0123456789abcdef`. -/
theorem C3_value_is_little_endian_payload_witness :
    (vhostUserGetFeatures (replyWire (u64Reply VHOST_USER_GET_FEATURES 0x0123456789abcdef))
      [] endpoint.zero 1).1 = (0x0123456789abcdef, none) :=
  (C3_value_is_little_endian_payload
    (replyWire (u64Reply VHOST_USER_GET_FEATURES 0x0123456789abcdef)) [] endpoint.zero 1
    VHOST_USER_GET_FEATURES (u64Reply VHOST_USER_GET_FEATURES 0x0123456789abcdef)
    (Or.inl rfl) rfl rfl rfl rfl).2.2.2 0x0123456789abcdef
    (List.replicate (MAX_PAYLOAD_SIZE - 8) 0) (by norm_num) rfl rfl

/-- C4: whenever `vhostUserGetU64` sends a request, the message it hands to
`vhostUserWrite` has request kind `req`, the protocol version bit 0x1 set in
its flags, and payload size 0. -/
theorem C4_request_message_fields (w : Wire) (hist : List ChanEvent) (ep : endpoint)
    (idx : Int) (req : Nat) (hsent : vhostUserOneTimeRequest req = false ∨ idx = 0) :
    ∃ m tail, (vhostUserGetU64 w hist ep idx req).2 = hist ++ ChanEvent.write m [] 0 :: tail ∧
      m.request = req ∧ m.flags &&& 0x1 = 0x1 ∧
      m.flags &&& VHOST_USER_VERSION = VHOST_USER_VERSION ∧ m.size = 0 := by
  obtain ⟨tail, ht⟩ := getU64_sent w hist ep idx req hsent
  have hf : (requestMsg req).flags = 1 := rfl
  refine ⟨requestMsg req, tail, ht, rfl, ?_, ?_, rfl⟩
  · rw [hf]
    decide
  · rw [hf]
    decide

/-- Witness for C4: a GET_FEATURES request on queue 1. -/
theorem C4_request_message_fields_witness :
    ∃ m tail, (vhostUserGetU64 (replyWire (u64Reply VHOST_USER_GET_FEATURES 7)) []
        endpoint.zero 1 VHOST_USER_GET_FEATURES).2 = [] ++ ChanEvent.write m [] 0 :: tail ∧
      m.request = VHOST_USER_GET_FEATURES ∧ m.flags &&& 0x1 = 0x1 ∧
      m.flags &&& VHOST_USER_VERSION = VHOST_USER_VERSION ∧ m.size = 0 :=
  C4_request_message_fields (replyWire (u64Reply VHOST_USER_GET_FEATURES 7)) []
    endpoint.zero 1 VHOST_USER_GET_FEATURES (Or.inl rfl)

/-- C5, as stated, fails: queue index 2 is out of range
(`VHOST_CLIENT_VRING_NUM = 2`), yet a GET_FEATURES request for it is written to
the control channel and answered without error, and a SET_OWNER request for it
returns `(0, nil)`, not an error. -/
theorem C5_out_of_range_index_not_rejected :
    (2 : Int) ≥ VHOST_CLIENT_VRING_NUM ∧
    (vhostUserGetU64 (replyWire (u64Reply VHOST_USER_GET_FEATURES 7)) [] endpoint.zero 2
      VHOST_USER_GET_FEATURES) =
      ((7, none), [ChanEvent.write (requestMsg VHOST_USER_GET_FEATURES) [] 0,
        ChanEvent.read (requestMsg VHOST_USER_GET_FEATURES)]) ∧
    (vhostUserGetU64 (replyWire (u64Reply VHOST_USER_GET_FEATURES 7)) [] endpoint.zero 2
      VHOST_USER_SET_OWNER) = ((0, none), []) := by
  refine ⟨by decide, ?_, ?_⟩
  · rw [getU64_answered (replyWire (u64Reply VHOST_USER_GET_FEATURES 7)) [] endpoint.zero 2
      VHOST_USER_GET_FEATURES (u64Reply VHOST_USER_GET_FEATURES 7) (Or.inl rfl) rfl rfl]
    have hl : loadU64 (encodeU64LE 7 ++ List.replicate (MAX_PAYLOAD_SIZE - 8) 0) = 7 :=
      loadU64_encode 7 _ (by norm_num)
    simp [hl, u64Reply]
  · exact getU64_skip _ _ _ _ _ rfl (by decide)

/-- C5, amended: `vhostUserGetU64` makes no range check on the queue index.
For an index outside the configured queues it does exactly what it does for
the in-range index 1: a one-time request returns `(0, nil)` with no call on the
control channel, and any other request is written to the control channel as
the first thing done. -/
theorem C5_out_of_range_index_treated_as_nonzero (w : Wire) (hist : List ChanEvent)
    (ep : endpoint) (idx : Int) (req : Nat)
    (hrange : idx < 0 ∨ idx ≥ VHOST_CLIENT_VRING_NUM) :
    vhostUserGetU64 w hist ep idx req = vhostUserGetU64 w hist ep 1 req ∧
    (vhostUserOneTimeRequest req = true →
      vhostUserGetU64 w hist ep idx req = ((0, none), hist)) ∧
    (vhostUserOneTimeRequest req = false →
      ∃ tail, (vhostUserGetU64 w hist ep idx req).2 =
        hist ++ ChanEvent.write (requestMsg req) [] 0 :: tail) := by
  have hne : idx ≠ 0 := by
    unfold VHOST_CLIENT_VRING_NUM at hrange
    omega
  refine ⟨?_, fun h1 => getU64_skip w hist ep idx req h1 hne,
    fun h1 => getU64_sent w hist ep idx req (Or.inl h1)⟩
  unfold vhostUserGetU64
  simp [hne]

/-- Witness for the amended C5: queue index 5. -/
theorem C5_out_of_range_index_treated_as_nonzero_witness :
    vhostUserGetU64 (replyWire (u64Reply VHOST_USER_GET_FEATURES 7)) [] endpoint.zero 5
        VHOST_USER_SET_OWNER = ((0, none), []) :=
  (C5_out_of_range_index_treated_as_nonzero (replyWire (u64Reply VHOST_USER_GET_FEATURES 7))
    [] endpoint.zero 5 VHOST_USER_SET_OWNER (Or.inr (by decide))).2.1 rfl

/-- C9: the request-kind constants carry the wire values of the protocol, the
defined request kinds are pairwise distinct and all below `VHOST_USER_MAX`,
and `MAX_PAYLOAD_SIZE` is 1024. -/
theorem C9_request_kind_values :
    VHOST_USER_GET_FEATURES = 1 ∧ VHOST_USER_SET_FEATURES = 2 ∧ VHOST_USER_SET_OWNER = 3 ∧
    VHOST_USER_RESET_OWNER = 4 ∧ VHOST_USER_SET_MEM_TABLE = 5 ∧
    VHOST_USER_SET_VRING_NUM = 8 ∧ VHOST_USER_SET_VRING_ADDR = 9 ∧
    VHOST_USER_SET_VRING_BASE = 10 ∧ VHOST_USER_GET_VRING_BASE = 11 ∧
    VHOST_USER_SET_VRING_KICK = 12 ∧ VHOST_USER_SET_VRING_CALL = 13 ∧
    VHOST_USER_GET_PROTOCOL_FEATURES = 15 ∧ VHOST_USER_SET_PROTOCOL_FEATURES = 16 ∧
    VHOST_USER_GET_QUEUE_NUM = 17 ∧ VHOST_USER_SET_VRING_ENABLE = 18 ∧
    VHOST_USER_NET_SET_MTU = 20 ∧
    definedRequests.Nodup ∧ (∀ r ∈ definedRequests, r < VHOST_USER_MAX) ∧
    MAX_PAYLOAD_SIZE = 1024 := by
  refine ⟨rfl, rfl, rfl, rfl, rfl, rfl, rfl, rfl, rfl, rfl, rfl, rfl, rfl, rfl, rfl, rfl,
    by decide, by decide, rfl⟩

/-! ## Properties of `endpoint.go` -/

theorem cleanHist_snoc (hist : List Step) (s : Step) (hc : cleanHist hist = true)
    (h1 : s.failed = false) (h2 : s.isRegister = false) :
    cleanHist (hist ++ [s]) = true := by
  unfold cleanHist at *
  simp [List.all_append, hc, h1, h2]

theorem failedHist_snoc (hist : List Step) (s : Step) (hc : cleanHist hist = true)
    (h1 : s.failed = true) (h2 : s.isRegister = false) : FailedHist (hist ++ [s]) :=
  ⟨hist, s, rfl, h1, h2, hc⟩

theorem initVhostClient_hist (h : Host) (hist : List Step) (path : String)
    (hc : cleanHist hist = true) :
    ((initVhostClient h hist path).1.2 = none ∧
        cleanHist (initVhostClient h hist path).2 = true) ∨
    ((initVhostClient h hist path).1.2 ≠ none ∧ FailedHist (initVhostClient h hist path).2) := by
  unfold initVhostClient
  rcases h1 : h.ResolveUnixAddr hist path with ⟨addr, e1⟩
  cases e1 with
  | some err => exact Or.inr ⟨by simp, failedHist_snoc _ _ hc rfl rfl⟩
  | none =>
    have hc1 := cleanHist_snoc hist (Step.ResolveUnixAddr path true) hc rfl rfl
    simp only
    rcases h2 : h.DialUnix (hist ++ [Step.ResolveUnixAddr path true]) addr with ⟨c, e2⟩
    cases e2 with
    | some err => exact Or.inr ⟨by simp, failedHist_snoc _ _ hc1 rfl rfl⟩
    | none =>
      have hc2 := cleanHist_snoc _ (Step.DialUnix addr true) hc1 rfl rfl
      simp only
      rcases h3 : h.File (hist ++ [Step.ResolveUnixAddr path true] ++ [Step.DialUnix addr true])
        c with ⟨fd, e3⟩
      cases e3 with
      | some err => exact Or.inr ⟨by simp, failedHist_snoc _ _ hc2 rfl rfl⟩
      | none => exact Or.inl ⟨by simp, cleanHist_snoc _ _ hc2 rfl rfl⟩

theorem shmLoop_succ_err (h : Host) (mem_size k i : Nat) (vum : vhostUserMemory)
    (hist : List Step) (err : Error) (he : (h.initShmFd hist mem_size).err = some err) :
    shmLoop h mem_size (k + 1) i vum hist =
      (Except.error (Error.initShmFailed err), hist ++ [Step.initShmFd mem_size false]) := by
  rw [shmLoop]
  simp only [he]

theorem shmLoop_succ_ok (h : Host) (mem_size k i : Nat) (vum : vhostUserMemory)
    (hist : List Step) (he : (h.initShmFd hist mem_size).err = none) :
    shmLoop h mem_size (k + 1) i vum hist =
      shmLoop h mem_size k (i + 1)
        { vum with
          fds := vum.fds.set i (h.initShmFd hist mem_size).fd
          regions := vum.regions.set i
            { guestPhysAddr := (h.initShmFd hist mem_size).addr,
              memorySize := (h.initShmFd hist mem_size).size,
              userspaceAddr := (h.initShmFd hist mem_size).addr,
              mmapOffset := (h.initShmFd hist mem_size).offset } }
        (hist ++ [Step.initShmFd mem_size true]) := by
  rw [shmLoop]
  simp only [he]

theorem shmLoop_hist (h : Host) (mem_size : Nat) :
    ∀ (k i : Nat) (vum : vhostUserMemory) (hist : List Step), cleanHist hist = true →
      ((∃ vum2, (shmLoop h mem_size k i vum hist).1 = Except.ok vum2) ∧
          cleanHist (shmLoop h mem_size k i vum hist).2 = true) ∨
      ((∃ err, (shmLoop h mem_size k i vum hist).1 = Except.error err) ∧
          FailedHist (shmLoop h mem_size k i vum hist).2) := by
  intro k
  induction k with
  | zero =>
    intro i vum hist hc
    exact Or.inl ⟨⟨vum, rfl⟩, hc⟩
  | succ k ih =>
    intro i vum hist hc
    cases he : (h.initShmFd hist mem_size).err with
    | some err =>
      rw [shmLoop_succ_err h mem_size k i vum hist err he]
      exact Or.inr ⟨⟨_, rfl⟩, failedHist_snoc _ _ hc rfl rfl⟩
    | none =>
      rw [shmLoop_succ_ok h mem_size k i vum hist he]
      exact ih _ _ _ (cleanHist_snoc _ (Step.initShmFd mem_size true) hc rfl rfl)

theorem vringLoop_succ_initErr (h : Host) (vum : vhostUserMemory) (k i : Nat) (ep : endpoint)
    (hist : List Step) (vr : vring) (err : Error)
    (h1 : h.initVring hist (vum.regions.getD i vhostUserMemoryRegion.zero)
      (vum.fds.getD i 0) = (vr, some err)) :
    vringLoop h vum (k + 1) i ep hist =
      (Except.error (Error.initVringFailed err),
        hist ++ [Step.initVring (vum.regions.getD i vhostUserMemoryRegion.zero)
          (vum.fds.getD i 0) false]) := by
  rw [vringLoop]
  simp only [h1]

theorem vringLoop_succ_setErr (h : Host) (vum : vhostUserMemory) (k i : Nat) (ep : endpoint)
    (hist : List Step) (vr : vring) (err : Error)
    (h1 : h.initVring hist (vum.regions.getD i vhostUserMemoryRegion.zero)
      (vum.fds.getD i 0) = (vr, none))
    (h2 : h.vhostUserSetVring (hist ++ [Step.initVring
      (vum.regions.getD i vhostUserMemoryRegion.zero) (vum.fds.getD i 0) true]) vr i
        = some err) :
    vringLoop h vum (k + 1) i ep hist =
      (Except.error (Error.setVringFailed err),
        hist ++ [Step.initVring (vum.regions.getD i vhostUserMemoryRegion.zero)
          (vum.fds.getD i 0) true] ++ [Step.vhostUserSetVring vr i false]) := by
  rw [vringLoop]
  simp only [h1, h2]

theorem vringLoop_succ_ok (h : Host) (vum : vhostUserMemory) (k i : Nat) (ep : endpoint)
    (hist : List Step) (vr : vring)
    (h1 : h.initVring hist (vum.regions.getD i vhostUserMemoryRegion.zero)
      (vum.fds.getD i 0) = (vr, none))
    (h2 : h.vhostUserSetVring (hist ++ [Step.initVring
      (vum.regions.getD i vhostUserMemoryRegion.zero) (vum.fds.getD i 0) true]) vr i = none) :
    vringLoop h vum (k + 1) i ep hist =
      vringLoop h vum k (i + 1) { ep with vringTable := ep.vringTable.set i vr }
        (hist ++ [Step.initVring (vum.regions.getD i vhostUserMemoryRegion.zero)
          (vum.fds.getD i 0) true] ++ [Step.vhostUserSetVring vr i true]) := by
  rw [vringLoop]
  simp only [h1, h2]

theorem vringLoop_hist (h : Host) (vum : vhostUserMemory) :
    ∀ (k i : Nat) (ep : endpoint) (hist : List Step), cleanHist hist = true →
      ((∃ ep2, (vringLoop h vum k i ep hist).1 = Except.ok ep2) ∧
          cleanHist (vringLoop h vum k i ep hist).2 = true) ∨
      ((∃ err, (vringLoop h vum k i ep hist).1 = Except.error err) ∧
          FailedHist (vringLoop h vum k i ep hist).2) := by
  intro k
  induction k with
  | zero =>
    intro i ep hist hc
    exact Or.inl ⟨⟨ep, rfl⟩, hc⟩
  | succ k ih =>
    intro i ep hist hc
    rcases h1 : h.initVring hist (vum.regions.getD i vhostUserMemoryRegion.zero)
      (vum.fds.getD i 0) with ⟨vr, e1⟩
    cases e1 with
    | some err =>
      rw [vringLoop_succ_initErr h vum k i ep hist vr err h1]
      exact Or.inr ⟨⟨_, rfl⟩, failedHist_snoc _ _ hc rfl rfl⟩
    | none =>
      have hc1 := cleanHist_snoc hist (Step.initVring
        (vum.regions.getD i vhostUserMemoryRegion.zero) (vum.fds.getD i 0) true) hc rfl rfl
      cases h2 : h.vhostUserSetVring (hist ++ [Step.initVring
        (vum.regions.getD i vhostUserMemoryRegion.zero) (vum.fds.getD i 0) true]) vr i with
      | some err =>
        rw [vringLoop_succ_setErr h vum k i ep hist vr err h1 h2]
        exact Or.inr ⟨⟨_, rfl⟩, failedHist_snoc _ _ hc1 rfl rfl⟩
      | none =>
        rw [vringLoop_succ_ok h vum k i ep hist vr h1 h2]
        exact ih _ _ _ (cleanHist_snoc _ (Step.vhostUserSetVring vr i true) hc1 rfl rfl)

/-- The two ways a run of `New` can go: it stops at the first failed call with
`nil` and an error, or every call succeeds and the last thing done is the
registration of `endpoint{}`, whose results are returned. -/
theorem New_cases (h : Host) (opt : Options) :
    ((New h opt).1.1 = none ∧ (New h opt).1.2 ≠ none ∧ FailedHist (New h opt).2) ∨
    (∃ pre, cleanHist pre = true ∧
      (New h opt).2 = pre ++ [Step.RegisterLinkEndpoint endpoint.zero] ∧
      (New h opt).1 = (some (h.RegisterLinkEndpoint pre endpoint.zero).1,
        (h.RegisterLinkEndpoint pre endpoint.zero).2)) := by
  unfold New
  simp only
  have hi := initVhostClient_hist h [] opt.SocketPath rfl
  rcases hc : initVhostClient h [] opt.SocketPath with ⟨⟨client, e⟩, hist⟩
  rw [hc] at hi
  cases e with
  | some err =>
    rcases hi with ⟨h1, _⟩ | ⟨_, h2⟩
    · simp at h1
    · exact Or.inl ⟨rfl, by simp, h2⟩
  | none =>
    rcases hi with ⟨_, hcl⟩ | ⟨h1, _⟩
    swap
    · simp at h1
    simp only at hcl ⊢
    have hs := shmLoop_hist h (h.getMemSize (h.bufSizeFromMTU opt.MTU)) VIRTQUEUE_NUM 0
      { vhostUserMemory.zero with nregions := VIRTQUEUE_NUM } hist hcl
    rcases hsl : shmLoop h (h.getMemSize (h.bufSizeFromMTU opt.MTU)) VIRTQUEUE_NUM 0
      { vhostUserMemory.zero with nregions := VIRTQUEUE_NUM } hist with ⟨r, hist1⟩
    rw [hsl] at hs
    cases r with
    | error err =>
      rcases hs with ⟨⟨_, h1⟩, _⟩ | ⟨_, h2⟩
      · simp at h1
      · exact Or.inl ⟨rfl, by simp, h2⟩
    | ok vum =>
      rcases hs with ⟨_, hcl1⟩ | ⟨⟨_, h1⟩, _⟩
      swap
      · simp at h1
      simp only at hcl1 ⊢
      cases hm : h.vhostUserSetMemTable hist1 vum with
      | some err =>
        exact Or.inl ⟨rfl, by simp, failedHist_snoc _ _ hcl1 rfl rfl⟩
      | none =>
        simp only
        have hcl2 := cleanHist_snoc hist1 (Step.vhostUserSetMemTable vum true) hcl1 rfl rfl
        have hv := vringLoop_hist h vum vum.nregions 0
          { endpoint.zero with client := client, memory := vum }
          (hist1 ++ [Step.vhostUserSetMemTable vum true]) hcl2
        rcases hvl : vringLoop h vum vum.nregions 0
          { endpoint.zero with client := client, memory := vum }
          (hist1 ++ [Step.vhostUserSetMemTable vum true]) with ⟨r2, hist2⟩
        rw [hvl] at hv
        cases r2 with
        | error err =>
          rcases hv with ⟨⟨_, h1⟩, _⟩ | ⟨_, h2⟩
          · simp at h1
          · exact Or.inl ⟨rfl, by simp, h2⟩
        | ok ep2 =>
          rcases hv with ⟨_, hcl3⟩ | ⟨⟨_, h1⟩, _⟩
          swap
          · simp at h1
          exact Or.inr ⟨hist2, hcl3, rfl, rfl⟩

/-- C6: in every run of `New` in which a construction step fails, `New` returns
`nil` for the endpoint ID together with an error, the failed step is the last
call it makes (every call before it succeeded), and no endpoint is registered
with the stack. -/
theorem C6_failed_step_aborts_construction (h : Host) (opt : Options)
    (hfail : ∃ s ∈ (New h opt).2, s.failed = true) :
    (New h opt).1.1 = none ∧ (New h opt).1.2 ≠ none ∧
    (∃ pre s, (New h opt).2 = pre ++ [s] ∧ s.failed = true ∧ ∀ t ∈ pre, t.failed = false) ∧
    (∀ ep, Step.RegisterLinkEndpoint ep ∉ (New h opt).2) := by
  have hclean : ∀ l : List Step, cleanHist l = true →
      ∀ t ∈ l, t.failed = false ∧ t.isRegister = false := by
    intro l hl t ht
    unfold cleanHist at hl
    have := List.all_eq_true.mp hl t ht
    simpa using this
  rcases New_cases h opt with ⟨h1, h2, pre, s, hlog, hsf, hsr, hpre⟩ | ⟨pre, hpre, hlog, _⟩
  · refine ⟨h1, h2, ⟨pre, s, hlog, hsf, fun t ht => (hclean pre hpre t ht).1⟩, ?_⟩
    intro ep hmem
    rw [hlog, List.mem_append, List.mem_singleton] at hmem
    rcases hmem with hm | hm
    · have := (hclean pre hpre _ hm).2
      simp [Step.isRegister] at this
    · rw [← hm] at hsr
      simp [Step.isRegister] at hsr
  · exfalso
    obtain ⟨s, hs, hsf⟩ := hfail
    rw [hlog, List.mem_append, List.mem_singleton] at hs
    rcases hs with hm | hm
    · have := (hclean pre hpre _ hm).1
      rw [this] at hsf
      exact Bool.false_ne_true hsf
    · rw [hm] at hsf
      simp [Step.failed] at hsf

theorem New_shmFailHost_hist :
    (New shmFailHost sampleOptions).2 =
      [Step.ResolveUnixAddr "/tmp/vhost.sock" true, Step.DialUnix 11 true, Step.File 12 true,
        Step.initShmFd 387072 true, Step.initShmFd 387072 false] := by
  rfl

/-- Witness for C6: the second shared-memory allocation fails. -/
theorem C6_failed_step_aborts_construction_witness :
    (New shmFailHost sampleOptions).1.1 = none ∧ (New shmFailHost sampleOptions).1.2 ≠ none ∧
    (∃ pre s, (New shmFailHost sampleOptions).2 = pre ++ [s] ∧ s.failed = true ∧
      ∀ t ∈ pre, t.failed = false) ∧
    (∀ ep, Step.RegisterLinkEndpoint ep ∉ (New shmFailHost sampleOptions).2) :=
  C6_failed_step_aborts_construction shmFailHost sampleOptions
    ⟨Step.initShmFd 387072 false, by rw [New_shmFailHost_hist]; simp, rfl⟩

/-- C7 fails on the code: on a host where every construction step succeeds,
`New` connects the client (connection 12, descriptor 7) and fills a memory
table with two regions, yet the endpoint it registers is `endpoint{}`, with no
connection, `nregions = 0` and two zero vrings. -/
theorem C7_registered_endpoint_is_empty :
    (New okHost sampleOptions).1 = (some 1, none) ∧
    (∀ t ∈ (New okHost sampleOptions).2, t.failed = false) ∧
    (New okHost sampleOptions).2.getLast? = some (Step.RegisterLinkEndpoint endpoint.zero) ∧
    (∀ ep, Step.RegisterLinkEndpoint ep ∈ (New okHost sampleOptions).2 →
      ep.client.conn = none ∧ ep.client.cfd = 0 ∧ ep.memory.nregions = 0 ∧
      ep.vringTable = [vring.zero, vring.zero]) ∧
    (initVhostClient okHost [] sampleOptions.SocketPath).1.1 =
      { sockPath := "/tmp/vhost.sock", conn := some 12, cfd := 7 } ∧
    Step.vhostUserSetMemTable
      { nregions := 2, padding := 0,
        regions := [{ guestPhysAddr := 196608, memorySize := 4096,
                      userspaceAddr := 196608, mmapOffset := 0 },
                    { guestPhysAddr := 262144, memorySize := 4096,
                      userspaceAddr := 262144, mmapOffset := 0 }],
        fds := [23, 24] } true ∈ (New okHost sampleOptions).2 := by
  have hlog : (New okHost sampleOptions).2 =
      [Step.ResolveUnixAddr "/tmp/vhost.sock" true, Step.DialUnix 11 true, Step.File 12 true,
        Step.initShmFd 387072 true, Step.initShmFd 387072 true,
        Step.vhostUserSetMemTable
          { nregions := 2, padding := 0,
            regions := [{ guestPhysAddr := 196608, memorySize := 4096,
                          userspaceAddr := 196608, mmapOffset := 0 },
                        { guestPhysAddr := 262144, memorySize := 4096,
                          userspaceAddr := 262144, mmapOffset := 0 }],
            fds := [23, 24] } true,
        Step.initVring { guestPhysAddr := 196608, memorySize := 4096,
                         userspaceAddr := 196608, mmapOffset := 0 } 23 true,
        Step.vhostUserSetVring
          { vring.zero with
            kickfd := 23, num := 256, desc := some [],
            avail := some { flags := 0, idx := 0, ring := [] },
            used := some { flags := 0, idx := 0, ring := [] } } 0 true,
        Step.initVring { guestPhysAddr := 262144, memorySize := 4096,
                         userspaceAddr := 262144, mmapOffset := 0 } 24 true,
        Step.vhostUserSetVring
          { vring.zero with
            kickfd := 24, num := 256, desc := some [],
            avail := some { flags := 0, idx := 0, ring := [] },
            used := some { flags := 0, idx := 0, ring := [] } } 1 true,
        Step.RegisterLinkEndpoint endpoint.zero] := by
    rfl
  refine ⟨rfl, ?_, ?_, ?_, rfl, ?_⟩
  · rw [hlog]
    intro t ht
    simp only [List.mem_cons, List.mem_singleton, List.not_mem_nil, or_false] at ht
    rcases ht with h | h | h | h | h | h | h | h | h | h | h <;> rw [h] <;> rfl
  · rw [hlog]
    rfl
  · rw [hlog]
    intro ep hep
    simp only [List.mem_cons, List.mem_singleton, List.not_mem_nil, or_false,
      reduceCtorEq, false_or, Step.RegisterLinkEndpoint.injEq] at hep
    rw [hep]
    exact ⟨rfl, rfl, rfl, rfl⟩
  · rw [hlog]
    simp

/-- C8 fails on the code: for an endpoint with a configured TX vring, a 64-byte
header and a 1400-byte payload, `WritePacket` returns success but leaves the
endpoint as it was: the TX avail index is still 0 and the avail ring and the
descriptor table are still empty. -/
theorem C8_write_packet_publishes_nothing :
    (WritePacket sampleEndpoint (List.replicate 64 0)
      { views := [List.replicate 1400 0], size := 1400 } 2048).2 = none ∧
    (WritePacket sampleEndpoint (List.replicate 64 0)
      { views := [List.replicate 1400 0], size := 1400 } 2048).1 = sampleEndpoint ∧
    (sampleEndpoint.vringTable.getD VHOST_CLIENT_VRING_IDX_TX vring.zero).avail =
      some { flags := 0, idx := 0, ring := [] } ∧
    ((WritePacket sampleEndpoint (List.replicate 64 0)
      { views := [List.replicate 1400 0], size := 1400 } 2048).1.vringTable.getD
        VHOST_CLIENT_VRING_IDX_TX vring.zero).avail =
      some { flags := 0, idx := 0, ring := [] } ∧
    ((WritePacket sampleEndpoint (List.replicate 64 0)
      { views := [List.replicate 1400 0], size := 1400 } 2048).1.vringTable.getD
        VHOST_CLIENT_VRING_IDX_TX vring.zero).desc = some [] :=
  ⟨rfl, rfl, rfl, rfl, rfl⟩

/-- C10: after `Attach(d)`, `IsAttached` is true exactly when `d` is non-nil;
`Attach` saves the dispatcher and changes no other field; and an endpoint that
was never attached (`endpoint{}`, which is what `New` registers) reports
`IsAttached() = false`. -/
theorem C10_attach_frame (e : endpoint) (d : Option Nat) :
    (IsAttached (Attach e d) = true ↔ d ≠ none) ∧
    (Attach e d).dispatcher = d ∧
    (Attach e d).client = e.client ∧
    (Attach e d).memory = e.memory ∧
    (Attach e d).vringTable = e.vringTable ∧
    IsAttached endpoint.zero = false ∧
    (∀ (h : Host) (opt : Options) (ep : endpoint),
      Step.RegisterLinkEndpoint ep ∈ (New h opt).2 → IsAttached ep = false) := by
  refine ⟨?_, rfl, rfl, rfl, rfl, rfl, ?_⟩
  · cases d <;> simp [IsAttached, Attach]
  · intro h opt ep hep
    rcases New_cases h opt with ⟨_, _, pre, s, hlog, _, hsr, hpre⟩ | ⟨pre, hpre, hlog, _⟩
    all_goals
      rw [hlog, List.mem_append, List.mem_singleton] at hep
      have hp : ∀ t ∈ pre, t.isRegister = false := by
        intro t ht
        unfold cleanHist at hpre
        have := List.all_eq_true.mp hpre t ht
        simp at this
        exact this.2
    · rcases hep with hm | hm
      · have := hp _ hm
        simp [Step.isRegister] at this
      · rw [← hm] at hsr
        simp [Step.isRegister] at hsr
    · rcases hep with hm | hm
      · have := hp _ hm
        simp [Step.isRegister] at this
      · injection hm with hm
        rw [hm]
        rfl

/-- Witness for C10: attaching dispatcher 3 to `endpoint{}`, and the endpoint
registered by a run of `New` in which every step succeeds. -/
theorem C10_attach_frame_witness :
    IsAttached (Attach endpoint.zero (some 3)) = true ∧
    IsAttached endpoint.zero = false :=
  ⟨(C10_attach_frame endpoint.zero (some 3)).1.mpr (by decide),
    (C10_attach_frame endpoint.zero (some 3)).2.2.2.2.2.2 okHost sampleOptions endpoint.zero
      (by rw [show (New okHost sampleOptions).2 = (New okHost sampleOptions).2.dropLast ++
            [Step.RegisterLinkEndpoint endpoint.zero] from rfl]
          simp)⟩

end vhostuser

namespace linux

/-! ## Properties of `writev` and `pwritev` -/

theorem wrapInt64_add_left (a b : Int) : wrapInt64 (wrapInt64 a + b) = wrapInt64 (a + b) := by
  unfold wrapInt64
  norm_num
  omega

theorem wrapInt64_add_right (a b : Int) : wrapInt64 (a + wrapInt64 b) = wrapInt64 (a + b) := by
  unfold wrapInt64
  norm_num
  omega

theorem wrapInt64_of_range (x : Int) (h1 : -2 ^ 63 ≤ x) (h2 : x < 2 ^ 63) : wrapInt64 x = x := by
  unfold wrapInt64
  norm_num at h1 h2 ⊢
  omega

theorem sumCounts_snoc (a : List FileEvent) (x : FileEvent) :
    sumCounts (a ++ [x]) = sumCounts a + x.count := by
  simp [sumCounts]

theorem writeResults_snoc (a : List FileEvent) (x : FileEvent) :
    writeResults (a ++ [x]) = writeResults a ++ (x.result).toList := by
  unfold writeResults
  rw [List.filterMap_append]
  cases h : x.result <;> simp [List.filterMap, h]

theorem waitResults_snoc (a : List FileEvent) (x : FileEvent) :
    waitResults (a ++ [x]) = waitResults a ++ (x.waitResult).toList := by
  unfold waitResults
  rw [List.filterMap_append]
  cases h : x.waitResult <;> simp [List.filterMap, h]

theorem sumCounts_eq_results (hist : List FileEvent) :
    sumCounts hist = ((writeResults hist).map Prod.fst).sum := by
  induction hist with
  | nil => rfl
  | cons x xs ih =>
    have h1 : sumCounts (x :: xs) = x.count + sumCounts xs := by simp [sumCounts]
    rw [h1, ih]
    cases x <;> simp [writeResults, List.filterMap, FileEvent.result, FileEvent.count]

theorem snoc_eq_split (hist pre post : List FileEvent) (x y : FileEvent)
    (h : hist ++ [x] = pre ++ y :: post) :
    (post = [] ∧ pre = hist ∧ y = x) ∨ (∃ post2, post = post2 ++ [x] ∧ hist = pre ++ y :: post2) := by
  rcases List.eq_nil_or_concat post with hp | ⟨post2, z, hp⟩
  · subst hp
    have := List.append_inj' h rfl
    exact Or.inl ⟨rfl, this.1.symm, by simpa using this.2.symm⟩
  · rw [List.concat_eq_append] at hp
    subst hp
    have h2 : hist ++ [x] = (pre ++ y :: post2) ++ [z] := by simpa using h
    have := List.append_inj' h2 rfl
    have hz : x = z := by simpa using this.2
    exact Or.inr ⟨post2, by rw [hz], this.1⟩

theorem RetryOK_nil (src0 : List Nat) (offset0 : Int) : RetryOK src0 offset0 [] := by
  intro pre x post h
  simp at h

theorem RetryOK_snoc (src0 : List Nat) (offset0 : Int) (hist : List FileEvent) (x : FileEvent)
    (h1 : RetryOK src0 offset0 hist) (h2 : eventOK src0 offset0 (sumCounts hist) x) :
    RetryOK src0 offset0 (hist ++ [x]) := by
  intro pre y post h
  rcases snoc_eq_split hist pre post x y h with ⟨_, hp, hy⟩ | ⟨post2, _, hh⟩
  · rw [hp, hy]
    exact h2
  · exact h1 pre y post2 hh

theorem drop_step (src src0 : List Nat) (n done n2 : Nat)
    (h : src.drop n = src0.drop done) :
    (DropFirst64 src n).drop n2 = src0.drop (done + n2) := by
  unfold DropFirst64
  rw [h, List.drop_drop]

theorem replicate_none_snoc (l : List (Nat × Option SysErr)) (x : Nat × Option SysErr)
    (hl : l ≠ []) :
    List.replicate (l.length - 1) (none : Option SysErr) ++ [none] =
      List.replicate ((l ++ [x]).length - 1) none := by
  have hpos : 0 < l.length := List.length_pos.mpr hl
  have : (l ++ [x]).length - 1 = (l.length - 1) + 1 := by
    simp only [List.length_append, List.length_singleton]
    omega
  rw [this, List.replicate_succ']

theorem writevLoop_spec (haveDeadline : Bool) (deadline : Int) (src0 : List Nat) (offset0 : Int) :
    ∀ (attempts : List (Nat × Option SysErr)) (waits : List (Option SysErr)) (src : List Nat)
      (n : Nat) (total : Int) (hist : List FileEvent) (r : (Int × Option SysErr) × List FileEvent),
      total = wrapInt64 (sumCounts hist) → src.drop n = src0.drop (sumCounts hist) →
      RetryOK src0 offset0 hist → writeResults hist ≠ [] →
      (∀ a ∈ writeResults hist, a.2 = some SysErr.ErrWouldBlock) →
      waitResults hist = List.replicate ((writeResults hist).length - 1) none →
      writevLoop haveDeadline deadline attempts waits src n total hist = some r →
      r.1.1 = wrapInt64 (sumCounts r.2) ∧ RetryOK src0 offset0 r.2 ∧
      (∃ m rest, attempts = m ++ rest ∧ writeResults r.2 = writeResults hist ++ m) ∧
      (∃ wm wrest, waits = wm ++ wrest ∧ waitResults r.2 = waitResults hist ++ wm) ∧
      LoopEnd true (writeResults r.2) (waitResults r.2) r.1.2 := by
  intro attempts
  induction attempts with
  | nil =>
    intro waits src n total hist r _ _ _ _ _ _ h
    simp [writevLoop] at h
  | cons a rest ih =>
    intro waits src n total hist r htot hsrc hok hne hwbs hwaits h
    obtain ⟨n2, err⟩ := a
    have hev : eventOK src0 offset0 (sumCounts hist)
        (FileEvent.Writev (DropFirst64 src n) n2 err) := by
      show DropFirst64 src n = src0.drop (sumCounts hist)
      rw [← hsrc]
      rfl
    have hok1 := RetryOK_snoc src0 offset0 hist _ hok hev
    have hsum1 : sumCounts (hist ++ [FileEvent.Writev (DropFirst64 src n) n2 err]) =
        sumCounts hist + n2 := sumCounts_snoc _ _
    have htot1 : wrapInt64 (total + n2) =
        wrapInt64 (sumCounts (hist ++ [FileEvent.Writev (DropFirst64 src n) n2 err])) := by
      rw [hsum1, htot, wrapInt64_add_left]
      push_cast
      rfl
    have hres1 : writeResults (hist ++ [FileEvent.Writev (DropFirst64 src n) n2 err]) =
        writeResults hist ++ [(n2, err)] := writeResults_snoc _ _
    have hwait1 : waitResults (hist ++ [FileEvent.Writev (DropFirst64 src n) n2 err]) =
        waitResults hist := by
      rw [waitResults_snoc]
      simp [FileEvent.waitResult]
    simp only [writevLoop] at h
    by_cases hwb : err = some SysErr.ErrWouldBlock
    · subst hwb
      simp only [bne_self_eq_false, Bool.false_eq_true, if_false] at h
      cases waits with
      | nil => simp at h
      | cons w ws =>
        have hres2 : writeResults (hist ++
            [FileEvent.Writev (DropFirst64 src n) n2 (some SysErr.ErrWouldBlock)] ++
            [FileEvent.BlockWithDeadline haveDeadline deadline w]) =
            writeResults hist ++ [(n2, some SysErr.ErrWouldBlock)] := by
          rw [writeResults_snoc, hres1]
          simp [FileEvent.result]
        have hwait2 : waitResults (hist ++
            [FileEvent.Writev (DropFirst64 src n) n2 (some SysErr.ErrWouldBlock)] ++
            [FileEvent.BlockWithDeadline haveDeadline deadline w]) =
            waitResults hist ++ [w] := by
          rw [waitResults_snoc, hwait1]
          simp [FileEvent.waitResult]
        have hsum2 : sumCounts (hist ++
            [FileEvent.Writev (DropFirst64 src n) n2 (some SysErr.ErrWouldBlock)] ++
            [FileEvent.BlockWithDeadline haveDeadline deadline w]) = sumCounts hist + n2 := by
          rw [sumCounts_snoc, hsum1]
          rfl
        have hok2 := RetryOK_snoc src0 offset0 _
          (FileEvent.BlockWithDeadline haveDeadline deadline w) hok1 trivial
        cases w with
        | some e =>
          simp only [Option.some.injEq] at h
          subst h
          refine ⟨?_, hok2, ⟨[(n2, some SysErr.ErrWouldBlock)], rest, rfl, hres2⟩,
            ⟨[some e], ws, rfl, hwait2⟩, ?_⟩
          · show wrapInt64 (total + n2) = _
            rw [hsum2, htot1, hsum1]
          · refine ⟨writeResults hist, (n2, some SysErr.ErrWouldBlock), hres2, hne, hwbs,
              Or.inr ⟨rfl, e, ?_, ?_⟩⟩
            · show waitResults _ = _
              rw [hwait2, hwaits]
            · show some (if e = SysErr.ETIMEDOUT then SysErr.ErrWouldBlock else e) = _
              simp
        | none =>
          simp only at h
          have hr := ih ws (DropFirst64 src n) n2 (wrapInt64 (total + n2)) _ r
            (by rw [hsum2, htot1, hsum1])
            (by rw [hsum2]; exact drop_step src src0 n (sumCounts hist) n2 hsrc)
            hok2
            (by rw [hres2]; simp)
            (by
              intro a ha
              rw [hres2, List.mem_append, List.mem_singleton] at ha
              rcases ha with ha | ha
              · exact hwbs a ha
              · rw [ha])
            (by rw [hwait2, hres2, hwaits]; exact replicate_none_snoc _ _ hne)
            h
          obtain ⟨h1, h2, ⟨m, rest2, hm, hmr⟩, ⟨wm, wrest, hw, hwr⟩, h5⟩ := hr
          refine ⟨h1, h2, ⟨(n2, some SysErr.ErrWouldBlock) :: m, rest2, ?_, ?_⟩,
            ⟨none :: wm, wrest, ?_, ?_⟩, h5⟩
          · rw [hm]
            rfl
          · rw [hmr, hres2]
            simp
          · rw [hw]
            rfl
          · rw [hwr, hwait2]
            simp
    · have hne2 : (err != some SysErr.ErrWouldBlock) = true := by simpa using hwb
      simp only [hne2, if_true, Option.some.injEq] at h
      subst h
      refine ⟨htot1, hok1, ⟨[(n2, err)], rest, rfl, hres1⟩, ⟨[], waits, rfl, ?_⟩, ?_⟩
      · show waitResults _ = _
        rw [hwait1]
        simp
      · refine ⟨writeResults hist, (n2, err), hres1, hne, hwbs, Or.inl ⟨hwb, ?_, rfl⟩⟩
        show waitResults _ = _
        rw [hwait1, hwaits]

theorem pwritevLoop_spec (offset0 : Int) (src0 : List Nat) :
    ∀ (attempts : List (Nat × Option SysErr)) (waits : List (Option SysErr)) (src : List Nat)
      (n : Nat) (total : Int) (hist : List FileEvent) (r : (Int × Option SysErr) × List FileEvent),
      total = wrapInt64 (sumCounts hist) → src.drop n = src0.drop (sumCounts hist) →
      RetryOK src0 offset0 hist → writeResults hist ≠ [] →
      (∀ a ∈ writeResults hist, a.2 = some SysErr.ErrWouldBlock) →
      waitResults hist = List.replicate ((writeResults hist).length - 1) none →
      pwritevLoop offset0 attempts waits src n total hist = some r →
      r.1.1 = wrapInt64 (sumCounts r.2) ∧ RetryOK src0 offset0 r.2 ∧
      (∃ m rest, attempts = m ++ rest ∧ writeResults r.2 = writeResults hist ++ m) ∧
      (∃ wm wrest, waits = wm ++ wrest ∧ waitResults r.2 = waitResults hist ++ wm) ∧
      LoopEnd false (writeResults r.2) (waitResults r.2) r.1.2 := by
  intro attempts
  induction attempts with
  | nil =>
    intro waits src n total hist r _ _ _ _ _ _ h
    simp [pwritevLoop] at h
  | cons a rest ih =>
    intro waits src n total hist r htot hsrc hok hne hwbs hwaits h
    obtain ⟨n2, err⟩ := a
    have hev : eventOK src0 offset0 (sumCounts hist)
        (FileEvent.Pwritev (DropFirst64 src n) (wrapInt64 (offset0 + total)) n2 err) := by
      show DropFirst64 src n = src0.drop (sumCounts hist) ∧
        wrapInt64 (offset0 + total) = wrapInt64 (offset0 + sumCounts hist)
      refine ⟨?_, ?_⟩
      · rw [← hsrc]
        rfl
      · rw [htot, wrapInt64_add_right]
    have hok1 := RetryOK_snoc src0 offset0 hist _ hok hev
    have hsum1 : sumCounts (hist ++ [FileEvent.Pwritev (DropFirst64 src n) (wrapInt64 (offset0 + total)) n2 err]) =
        sumCounts hist + n2 := sumCounts_snoc _ _
    have htot1 : wrapInt64 (total + n2) =
        wrapInt64 (sumCounts (hist ++ [FileEvent.Pwritev (DropFirst64 src n) (wrapInt64 (offset0 + total)) n2 err])) := by
      rw [hsum1, htot, wrapInt64_add_left]
      push_cast
      rfl
    have hres1 : writeResults (hist ++ [FileEvent.Pwritev (DropFirst64 src n) (wrapInt64 (offset0 + total)) n2 err]) =
        writeResults hist ++ [(n2, err)] := writeResults_snoc _ _
    have hwait1 : waitResults (hist ++ [FileEvent.Pwritev (DropFirst64 src n) (wrapInt64 (offset0 + total)) n2 err]) =
        waitResults hist := by
      rw [waitResults_snoc]
      simp [FileEvent.waitResult]
    simp only [pwritevLoop] at h
    by_cases hwb : err = some SysErr.ErrWouldBlock
    · subst hwb
      simp only [bne_self_eq_false, Bool.false_eq_true, if_false] at h
      cases waits with
      | nil => simp at h
      | cons w ws =>
        have hres2 : writeResults (hist ++
            [FileEvent.Pwritev (DropFirst64 src n) (wrapInt64 (offset0 + total)) n2 (some SysErr.ErrWouldBlock)] ++
            [FileEvent.Block w]) =
            writeResults hist ++ [(n2, some SysErr.ErrWouldBlock)] := by
          rw [writeResults_snoc, hres1]
          simp [FileEvent.result]
        have hwait2 : waitResults (hist ++
            [FileEvent.Pwritev (DropFirst64 src n) (wrapInt64 (offset0 + total)) n2 (some SysErr.ErrWouldBlock)] ++
            [FileEvent.Block w]) =
            waitResults hist ++ [w] := by
          rw [waitResults_snoc, hwait1]
          simp [FileEvent.waitResult]
        have hsum2 : sumCounts (hist ++
            [FileEvent.Pwritev (DropFirst64 src n) (wrapInt64 (offset0 + total)) n2 (some SysErr.ErrWouldBlock)] ++
            [FileEvent.Block w]) = sumCounts hist + n2 := by
          rw [sumCounts_snoc, hsum1]
          rfl
        have hok2 := RetryOK_snoc src0 offset0 _
          (FileEvent.Block w) hok1 trivial
        cases w with
        | some e =>
          simp only [Option.some.injEq] at h
          subst h
          refine ⟨?_, hok2, ⟨[(n2, some SysErr.ErrWouldBlock)], rest, rfl, hres2⟩,
            ⟨[some e], ws, rfl, hwait2⟩, ?_⟩
          · show wrapInt64 (total + n2) = _
            rw [hsum2, htot1, hsum1]
          · refine ⟨writeResults hist, (n2, some SysErr.ErrWouldBlock), hres2, hne, hwbs,
              Or.inr ⟨rfl, e, ?_, ?_⟩⟩
            · show waitResults _ = _
              rw [hwait2, hwaits]
            · show some e = _
              simp
        | none =>
          simp only at h
          have hr := ih ws (DropFirst64 src n) n2 (wrapInt64 (total + n2)) _ r
            (by rw [hsum2, htot1, hsum1])
            (by rw [hsum2]; exact drop_step src src0 n (sumCounts hist) n2 hsrc)
            hok2
            (by rw [hres2]; simp)
            (by
              intro a ha
              rw [hres2, List.mem_append, List.mem_singleton] at ha
              rcases ha with ha | ha
              · exact hwbs a ha
              · rw [ha])
            (by rw [hwait2, hres2, hwaits]; exact replicate_none_snoc _ _ hne)
            h
          obtain ⟨h1, h2, ⟨m, rest2, hm, hmr⟩, ⟨wm, wrest, hw, hwr⟩, h5⟩ := hr
          refine ⟨h1, h2, ⟨(n2, some SysErr.ErrWouldBlock) :: m, rest2, ?_, ?_⟩,
            ⟨none :: wm, wrest, ?_, ?_⟩, h5⟩
          · rw [hm]
            rfl
          · rw [hmr, hres2]
            simp
          · rw [hw]
            rfl
          · rw [hwr, hwait2]
            simp
    · have hne2 : (err != some SysErr.ErrWouldBlock) = true := by simpa using hwb
      simp only [hne2, if_true, Option.some.injEq] at h
      subst h
      refine ⟨htot1, hok1, ⟨[(n2, err)], rest, rfl, hres1⟩, ⟨[], waits, rfl, ?_⟩, ?_⟩
      · show waitResults _ = _
        rw [hwait1]
        simp
      · refine ⟨writeResults hist, (n2, err), hres1, hne, hwbs, Or.inl ⟨hwb, ?_, rfl⟩⟩
        show waitResults _ = _
        rw [hwait1, hwaits]

theorem silent_snoc (src0 : List Nat) (offset0 : Int) (hist : List FileEvent) (x : FileEvent)
    (hc : x.count = 0) (hr : x.result = none) (hw : x.waitResult = none)
    (hx : ∀ done, eventOK src0 offset0 done x) :
    sumCounts (hist ++ [x]) = sumCounts hist ∧ writeResults (hist ++ [x]) = writeResults hist ∧
    waitResults (hist ++ [x]) = waitResults hist ∧
    (RetryOK src0 offset0 hist → RetryOK src0 offset0 (hist ++ [x])) := by
  refine ⟨?_, ?_, ?_, fun h => RetryOK_snoc src0 offset0 hist x h (hx _)⟩
  · rw [sumCounts_snoc, hc]
    rfl
  · rw [writeResults_snoc, hr]
    simp
  · rw [waitResults_snoc, hw]
    simp

theorem silent_inotify (src0 : List Nat) (offset0 : Int) (hist : List FileEvent) (c : Prop)
    [Decidable c] :
    sumCounts (if c then hist ++ [FileEvent.InotifyEvent] else hist) = sumCounts hist ∧
    writeResults (if c then hist ++ [FileEvent.InotifyEvent] else hist) = writeResults hist ∧
    waitResults (if c then hist ++ [FileEvent.InotifyEvent] else hist) = waitResults hist ∧
    (RetryOK src0 offset0 hist →
      RetryOK src0 offset0 (if c then hist ++ [FileEvent.InotifyEvent] else hist)) := by
  split_ifs
  · exact silent_snoc src0 offset0 hist _ rfl rfl rfl (fun _ => trivial)
  · exact ⟨rfl, rfl, rfl, fun h => h⟩

theorem first_event (src0 : List Nat) (offset0 : Int) (x : FileEvent)
    (hx : eventOK src0 offset0 0 x) : RetryOK src0 offset0 [x] := by
  have := RetryOK_snoc src0 offset0 [] x (RetryOK_nil src0 offset0) hx
  simpa using this

theorem writev_spec (deadlineAfter : Int → Int) (f : File) (src : List Nat)
    (attempts : List (Nat × Option SysErr)) (waits : List (Option SysErr))
    (r : (Int × Option SysErr) × List FileEvent)
    (hcounts : ∀ a ∈ attempts, a.1 < 2 ^ 63)
    (h : writev deadlineAfter f src attempts waits = some r) :
    r.1.1 = wrapInt64 (sumCounts r.2) ∧ RetryOK src 0 r.2 ∧
    writeResults r.2 <+: attempts ∧ waitResults r.2 <+: waits ∧
    RunEnd true f (writeResults r.2) (waitResults r.2) r.1.2 := by
  cases attempts with
  | nil => simp [writev] at h
  | cons a rest =>
    obtain ⟨n, err⟩ := a
    have hn : n < 2 ^ 63 := hcounts (n, err) (List.mem_cons_self _ _)
    have hwrap : ((n : Nat) : Int) = wrapInt64 (n : Int) := by
      rw [wrapInt64_of_range]
      · have : (0 : Int) ≤ (n : Int) := Int.ofNat_nonneg n
        norm_num
        omega
      · exact_mod_cast hn
    have hs0 : sumCounts [FileEvent.Writev src n err] = n := by simp [sumCounts, FileEvent.count]
    have hr0 : writeResults [FileEvent.Writev src n err] = [(n, err)] := rfl
    have hw0 : waitResults [FileEvent.Writev src n err] = [] := rfl
    have hok0 : RetryOK src 0 [FileEvent.Writev src n err] :=
      first_event src 0 _ (show src = src.drop 0 from rfl)
    simp only [writev] at h
    split at h
    · rename_i hcond
      simp only [Option.some.injEq] at h
      subst h
      obtain ⟨i1, i2, i3, i4⟩ := silent_inotify src 0 [FileEvent.Writev src n err] (n > 0)
      refine ⟨?_, i4 hok0, ?_, ?_, ?_⟩
      · show (n : Int) = wrapInt64 (sumCounts _)
        rw [i1, hs0]
        exact hwrap
      · show writeResults _ <+: _
        rw [i2, hr0]
        exact ⟨rest, rfl⟩
      · show waitResults _ <+: _
        rw [i3, hw0]
        exact List.nil_prefix
      · show RunEnd true f (writeResults _) (waitResults _) err
        rw [i2, i3, hr0, hw0]
        refine Or.inl ⟨(n, err), rfl, rfl, rfl, ?_⟩
        simp only [Bool.or_eq_true, bne_iff_ne, ne_eq] at hcond
        rcases hcond with hc | hc
        · exact Or.inl hc
        · exact Or.inr (Or.inl hc)
    · rename_i hcond
      have hwb : err = some SysErr.ErrWouldBlock := by
        by_contra hne
        apply hcond
        simp [hne]
      have hnb : f.Flags.NonBlocking = false := by
        cases hb : f.Flags.NonBlocking
        · rfl
        · exfalso
          apply hcond
          simp [hb]
      split at h
      · rename_i hsock
        simp only [Option.some.injEq] at h
        subst h
        refine ⟨?_, hok0, ?_, ?_, ?_⟩
        · show (n : Int) = wrapInt64 (sumCounts _)
          rw [hs0]
          exact hwrap
        · exact ⟨rest, rfl⟩
        · exact List.nil_prefix
        · refine Or.inl ⟨(n, err), rfl, rfl, rfl, Or.inr (Or.inr ⟨rfl, ?_⟩)⟩
          cases hst : f.SendTimeout with
          | none =>
            rw [hst] at hsock
            simp at hsock
          | some dl =>
            rw [hst] at hsock
            simp only [Bool.and_eq_true, decide_eq_true_eq] at hsock
            exact ⟨dl, rfl, hsock.1⟩
      · rename_i hsock
        have hnoneg : ∀ dl, f.SendTimeout = some dl → ¬ dl < 0 := by
          intro dl hst hlt
          apply hsock
          rw [hst]
          simp [hlt, hwb]
        obtain ⟨g1, g2, g3, g4⟩ := silent_snoc src 0 [FileEvent.Writev src n err]
          FileEvent.EventRegister rfl rfl rfl (fun _ => trivial)
        split at h
        · simp at h
        · rename_i total err2 hist hloop
          simp only [Option.some.injEq] at h
          subst h
          have hl := writevLoop_spec _ _ src 0 rest waits src n (n : Int) _ _
            (by rw [g1, hs0]; exact hwrap)
            (by rw [g1, hs0])
            (g4 hok0)
            (by rw [g2, hr0]; simp)
            (by
              intro a ha
              rw [g2, hr0, List.mem_singleton] at ha
              rw [ha]
              exact hwb)
            (by rw [g3, g2, hw0, hr0]; rfl)
            hloop
          obtain ⟨l1, l2, ⟨m, rest2, hm, hmr⟩, ⟨wm, wrest, hwm, hwr⟩, l5⟩ := hl
          obtain ⟨u1, u2, u3, u4⟩ := silent_snoc src 0 hist FileEvent.EventUnregister
            rfl rfl rfl (fun _ => trivial)
          obtain ⟨i1, i2, i3, i4⟩ := silent_inotify src 0
            (hist ++ [FileEvent.EventUnregister]) (total > 0)
          refine ⟨?_, i4 (u4 l2), ?_, ?_, ?_⟩
          · show total = wrapInt64 (sumCounts _)
            rw [i1, u1]
            exact l1
          · show writeResults _ <+: _
            rw [i2, u2, hmr, g2, hr0, hm]
            exact ⟨rest2, by simp⟩
          · show waitResults _ <+: _
            rw [i3, u3, hwr, g3, hw0, hwm]
            exact ⟨wrest, by simp⟩
          · show RunEnd true f (writeResults _) (waitResults _) err2
            rw [i2, i3, u2, u3]
            exact Or.inr ⟨hnb, fun _ => hnoneg, l5⟩

theorem pwritev_spec (f : File) (src : List Nat) (offset : Int)
    (attempts : List (Nat × Option SysErr)) (waits : List (Option SysErr))
    (r : (Int × Option SysErr) × List FileEvent)
    (hcounts : ∀ a ∈ attempts, a.1 < 2 ^ 63)
    (hoff : -2 ^ 63 ≤ offset ∧ offset < 2 ^ 63)
    (h : pwritev f src offset attempts waits = some r) :
    r.1.1 = wrapInt64 (sumCounts r.2) ∧ RetryOK src offset r.2 ∧
    writeResults r.2 <+: attempts ∧ waitResults r.2 <+: waits ∧
    RunEnd false f (writeResults r.2) (waitResults r.2) r.1.2 := by
  cases attempts with
  | nil => simp [pwritev] at h
  | cons a rest =>
    obtain ⟨n, err⟩ := a
    have hn : n < 2 ^ 63 := hcounts (n, err) (List.mem_cons_self _ _)
    have hwrap : ((n : Nat) : Int) = wrapInt64 (n : Int) := by
      rw [wrapInt64_of_range]
      · have : (0 : Int) ≤ (n : Int) := Int.ofNat_nonneg n
        norm_num
        omega
      · exact_mod_cast hn
    have hs0 : sumCounts [FileEvent.Pwritev src offset n err] = n := by
      simp [sumCounts, FileEvent.count]
    have hr0 : writeResults [FileEvent.Pwritev src offset n err] = [(n, err)] := rfl
    have hw0 : waitResults [FileEvent.Pwritev src offset n err] = [] := rfl
    have hok0 : RetryOK src offset [FileEvent.Pwritev src offset n err] := by
      refine first_event src offset _ ?_
      show src = src.drop 0 ∧ offset = wrapInt64 (offset + ((0 : Nat) : Int))
      refine ⟨rfl, ?_⟩
      rw [wrapInt64_of_range]
      · simp
      · simpa using hoff.1
      · simpa using hoff.2
    simp only [pwritev] at h
    split at h
    · rename_i hcond
      simp only [Option.some.injEq] at h
      subst h
      obtain ⟨i1, i2, i3, i4⟩ := silent_inotify src offset
        [FileEvent.Pwritev src offset n err] (n > 0)
      refine ⟨?_, i4 hok0, ?_, ?_, ?_⟩
      · show (n : Int) = wrapInt64 (sumCounts _)
        rw [i1, hs0]
        exact hwrap
      · show writeResults _ <+: _
        rw [i2, hr0]
        exact ⟨rest, rfl⟩
      · show waitResults _ <+: _
        rw [i3, hw0]
        exact List.nil_prefix
      · show RunEnd false f (writeResults _) (waitResults _) err
        rw [i2, i3, hr0, hw0]
        refine Or.inl ⟨(n, err), rfl, rfl, rfl, ?_⟩
        simp only [Bool.or_eq_true, bne_iff_ne, ne_eq] at hcond
        rcases hcond with hc | hc
        · exact Or.inl hc
        · exact Or.inr (Or.inl hc)
    · rename_i hcond
      have hwb : err = some SysErr.ErrWouldBlock := by
        by_contra hne
        apply hcond
        simp [hne]
      have hnb : f.Flags.NonBlocking = false := by
        cases hb : f.Flags.NonBlocking
        · rfl
        · exfalso
          apply hcond
          simp [hb]
      obtain ⟨g1, g2, g3, g4⟩ := silent_snoc src offset [FileEvent.Pwritev src offset n err]
        FileEvent.EventRegister rfl rfl rfl (fun _ => trivial)
      split at h
      · simp at h
      · rename_i total err2 hist hloop
        simp only [Option.some.injEq] at h
        subst h
        have hl := pwritevLoop_spec offset src rest waits src n (n : Int) _ _
          (by rw [g1, hs0]; exact hwrap)
          (by rw [g1, hs0])
          (g4 hok0)
          (by rw [g2, hr0]; simp)
          (by
            intro a ha
            rw [g2, hr0, List.mem_singleton] at ha
            rw [ha]
            exact hwb)
          (by rw [g3, g2, hw0, hr0]; rfl)
          hloop
        obtain ⟨l1, l2, ⟨m, rest2, hm, hmr⟩, ⟨wm, wrest, hwm, hwr⟩, l5⟩ := hl
        obtain ⟨u1, u2, u3, u4⟩ := silent_snoc src offset hist FileEvent.EventUnregister
          rfl rfl rfl (fun _ => trivial)
        obtain ⟨i1, i2, i3, i4⟩ := silent_inotify src offset
          (hist ++ [FileEvent.EventUnregister]) (total > 0)
        refine ⟨?_, i4 (u4 l2), ?_, ?_, ?_⟩
        · show total = wrapInt64 (sumCounts _)
          rw [i1, u1]
          exact l1
        · show writeResults _ <+: _
          rw [i2, u2, hmr, g2, hr0, hm]
          exact ⟨rest2, by simp⟩
        · show waitResults _ <+: _
          rw [i3, u3, hwr, g3, hw0, hwm]
          exact ⟨wrest, by simp⟩
        · show RunEnd false f (writeResults _) (waitResults _) err2
          rw [i2, i3, u2, u3]
          exact Or.inr ⟨hnb, fun hf => by simp at hf, l5⟩

/-- A script that ends in an attempt that is not "would block" and has a wait
result for every attempt carries the loop of `writev` to its end. -/
theorem writevLoop_isSome (haveDeadline : Bool) (deadline : Int) :
    ∀ (attempts : List (Nat × Option SysErr)) (waits : List (Option SysErr)) (src : List Nat)
      (n : Nat) (total : Int) (hist : List FileEvent),
      (∃ a, attempts.getLast? = some a ∧ a.2 ≠ some SysErr.ErrWouldBlock) →
      attempts.length ≤ waits.length →
      (writevLoop haveDeadline deadline attempts waits src n total hist).isSome = true := by
  intro attempts
  induction attempts with
  | nil =>
    intro waits src n total hist ⟨a, ha, _⟩ _
    simp at ha
  | cons a rest ih =>
    intro waits src n total hist ⟨b, hb, hbe⟩ hlen
    obtain ⟨n2, err⟩ := a
    simp only [writevLoop]
    by_cases hwb : err = some SysErr.ErrWouldBlock
    · simp only [hwb, bne_self_eq_false, Bool.false_eq_true, if_false]
      cases rest with
      | nil =>
        simp only [List.getLast?_singleton, Option.some.injEq] at hb
        rw [← hb] at hbe
        exact absurd hwb hbe
      | cons c rest2 =>
        cases waits with
        | nil => simp at hlen
        | cons w ws =>
          cases w with
          | some e => rfl
          | none =>
            refine ih ws _ _ _ _ ⟨b, ?_, hbe⟩ ?_
            · rw [List.getLast?_cons_cons] at hb
              exact hb
            · simp only [List.length_cons] at hlen ⊢
              omega
    · have hne : (err != some SysErr.ErrWouldBlock) = true := by simpa using hwb
      simp [hne]

/-- The same for the loop of `pwritev`. -/
theorem pwritevLoop_isSome (offset : Int) :
    ∀ (attempts : List (Nat × Option SysErr)) (waits : List (Option SysErr)) (src : List Nat)
      (n : Nat) (total : Int) (hist : List FileEvent),
      (∃ a, attempts.getLast? = some a ∧ a.2 ≠ some SysErr.ErrWouldBlock) →
      attempts.length ≤ waits.length →
      (pwritevLoop offset attempts waits src n total hist).isSome = true := by
  intro attempts
  induction attempts with
  | nil =>
    intro waits src n total hist ⟨a, ha, _⟩ _
    simp at ha
  | cons a rest ih =>
    intro waits src n total hist ⟨b, hb, hbe⟩ hlen
    obtain ⟨n2, err⟩ := a
    simp only [pwritevLoop]
    by_cases hwb : err = some SysErr.ErrWouldBlock
    · simp only [hwb, bne_self_eq_false, Bool.false_eq_true, if_false]
      cases rest with
      | nil =>
        simp only [List.getLast?_singleton, Option.some.injEq] at hb
        rw [← hb] at hbe
        exact absurd hwb hbe
      | cons c rest2 =>
        cases waits with
        | nil => simp at hlen
        | cons w ws =>
          cases w with
          | some e => rfl
          | none =>
            refine ih ws _ _ _ _ ⟨b, ?_, hbe⟩ ?_
            · rw [List.getLast?_cons_cons] at hb
              exact hb
            · simp only [List.length_cons] at hlen ⊢
              omega
    · have hne : (err != some SysErr.ErrWouldBlock) = true := by simpa using hwb
      simp [hne]

theorem writev_isSome (deadlineAfter : Int → Int) (f : File) (src : List Nat)
    (attempts : List (Nat × Option SysErr)) (waits : List (Option SysErr))
    (hlast : ∃ a, attempts.getLast? = some a ∧ a.2 ≠ some SysErr.ErrWouldBlock)
    (hlen : attempts.length ≤ waits.length + 1) :
    (writev deadlineAfter f src attempts waits).isSome = true := by
  obtain ⟨b, hb, hbe⟩ := hlast
  cases attempts with
  | nil => simp at hb
  | cons a rest =>
    obtain ⟨n, err⟩ := a
    simp only [writev]
    split
    · rfl
    · rename_i hcond
      split
      · rfl
      · have hwb : err = some SysErr.ErrWouldBlock := by
          by_contra hne
          apply hcond
          simp [hne]
        cases rest with
        | nil =>
          simp only [List.getLast?_singleton, Option.some.injEq] at hb
          rw [← hb] at hbe
          exact absurd hwb hbe
        | cons c rest2 =>
          rw [List.getLast?_cons_cons] at hb
          have hl := writevLoop_isSome
            (match f.SendTimeout with
              | some dl =>
                (decide (dl < 0) && (err == some SysErr.ErrWouldBlock), decide (dl > 0),
                  if dl > 0 then deadlineAfter dl else 0)
              | none => (false, false, 0)).2.1
            (match f.SendTimeout with
              | some dl =>
                (decide (dl < 0) && (err == some SysErr.ErrWouldBlock), decide (dl > 0),
                  if dl > 0 then deadlineAfter dl else 0)
              | none => (false, false, 0)).2.2
            (c :: rest2) waits src n (n : Int)
            ([FileEvent.Writev src n err] ++ [FileEvent.EventRegister]) ⟨b, hb, hbe⟩
            (by simp only [List.length_cons] at hlen ⊢; omega)
          split
          · rename_i hnone
            rw [hnone] at hl
            simp at hl
          · rfl

theorem pwritev_isSome (f : File) (src : List Nat) (offset : Int)
    (attempts : List (Nat × Option SysErr)) (waits : List (Option SysErr))
    (hlast : ∃ a, attempts.getLast? = some a ∧ a.2 ≠ some SysErr.ErrWouldBlock)
    (hlen : attempts.length ≤ waits.length + 1) :
    (pwritev f src offset attempts waits).isSome = true := by
  obtain ⟨b, hb, hbe⟩ := hlast
  cases attempts with
  | nil => simp at hb
  | cons a rest =>
    obtain ⟨n, err⟩ := a
    simp only [pwritev]
    split
    · rfl
    · rename_i hcond
      have hwb : err = some SysErr.ErrWouldBlock := by
        by_contra hne
        apply hcond
        simp [hne]
      cases rest with
      | nil =>
        simp only [List.getLast?_singleton, Option.some.injEq] at hb
        rw [← hb] at hbe
        exact absurd hwb hbe
      | cons c rest2 =>
        rw [List.getLast?_cons_cons] at hb
        have hl := pwritevLoop_isSome offset (c :: rest2) waits src n (n : Int)
          ([FileEvent.Pwritev src offset n err] ++ [FileEvent.EventRegister]) ⟨b, hb, hbe⟩
          (by simp only [List.length_cons] at hlen ⊢; omega)
        split
        · rename_i hnone
          rw [hnone] at hl
          simp at hl
        · rfl

theorem timeout_is_wouldBlock (f : File) (hist : List FileEvent)
    (err : Option SysErr) (hd : Bool) (dl : Int)
    (hend : RunEnd true f (writeResults hist) (waitResults hist) err)
    (hmem : FileEvent.BlockWithDeadline hd dl (some SysErr.ETIMEDOUT) ∈ hist) :
    err = some SysErr.ErrWouldBlock := by
  have hw : some SysErr.ETIMEDOUT ∈ waitResults hist := by
    unfold waitResults
    rw [List.mem_filterMap]
    exact ⟨_, hmem, rfl⟩
  rcases hend with ⟨a, _, hwaited, _, _⟩ | ⟨_, _, init, last, _, _, _, hcase⟩
  · rw [hwaited] at hw
    simp at hw
  · rcases hcase with ⟨_, hwaited, _⟩ | ⟨_, e, hwaited, herr⟩
    · rw [hwaited] at hw
      have := List.eq_of_mem_replicate hw
      simp at this
    · rw [hwaited, List.mem_append, List.mem_singleton] at hw
      rcases hw with hw | hw
      · have := List.eq_of_mem_replicate hw
        simp at this
      · have he : e = SysErr.ETIMEDOUT := by
          injection hw with hw
          exact hw.symm
        rw [herr, he]
        simp

/-- C11, as stated, fails: `pwritev` at offset `2 ^ 63 - 2` whose first
attempt writes 3 bytes and would block issues its retry at offset
`-9223372036854775807`, the `int64` sum, and not at the offset plus the 3
bytes written; and two attempts of `2 ^ 62` bytes give the count
`-9223372036854775808`, not their sum. -/
theorem C11_int64_sums_wrap :
    pwritev sampleSocket [1, 2, 3, 4, 5, 6, 7, 8, 9, 10] 9223372036854775806
        [(3, some SysErr.ErrWouldBlock), (7, none)] [none] =
      some ((10, none),
        [FileEvent.Pwritev [1, 2, 3, 4, 5, 6, 7, 8, 9, 10] 9223372036854775806 3
            (some SysErr.ErrWouldBlock),
          FileEvent.EventRegister,
          FileEvent.Pwritev [4, 5, 6, 7, 8, 9, 10] (-9223372036854775807) 7 none,
          FileEvent.EventUnregister, FileEvent.InotifyEvent]) ∧
    (-9223372036854775807 : Int) ≠ 9223372036854775806 + 3 ∧
    (pwritev sampleSocket [1] 0
        [(2 ^ 62, some SysErr.ErrWouldBlock), (2 ^ 62, none)] [none]).map (fun r => r.1) =
      some (-9223372036854775808, none) ∧
    (-9223372036854775808 : Int) ≠ 2 ^ 62 + 2 ^ 62 := by
  refine ⟨by decide, by decide, by decide, by decide⟩

/-- C11, amended: for every finite script of write-attempt results (counts
below `2 ^ 63`, the offset an `int64`), the attempts `writev` and `pwritev`
make are the script's results in order, retried exactly while they return
"would block" and the wait succeeds; the count returned is the `int64` sum of
the counts of all attempts made, the exact sum whenever that is below
`2 ^ 63`; every attempt is issued on the source without the bytes written so
far and, for `pwritev`, at the `int64` sum of the offset and the bytes written
so far, the exact sum whenever that is below `2 ^ 63`; a wait in `writev` that
returns `ETIMEDOUT` gives the error `ErrWouldBlock`; and a script that ends in
an attempt that is not "would block", with a wait result for every retry,
gives a result. -/
theorem C11_write_retry_accounting (deadlineAfter : Int → Int) (f : File) (src : List Nat)
    (offset : Int) (attempts : List (Nat × Option SysErr)) (waits : List (Option SysErr))
    (hcounts : ∀ a ∈ attempts, a.1 < 2 ^ 63)
    (hoff : -2 ^ 63 ≤ offset ∧ offset < 2 ^ 63) :
    (∀ r, writev deadlineAfter f src attempts waits = some r →
      writeResults r.2 <+: attempts ∧ waitResults r.2 <+: waits ∧
      RunEnd true f (writeResults r.2) (waitResults r.2) r.1.2 ∧
      r.1.1 = wrapInt64 (((writeResults r.2).map Prod.fst).sum : Nat) ∧
      (((writeResults r.2).map Prod.fst).sum < 2 ^ 63 →
        r.1.1 = (((writeResults r.2).map Prod.fst).sum : Nat)) ∧
      (∀ pre s n e post, r.2 = pre ++ FileEvent.Writev s n e :: post →
        s = src.drop (sumCounts pre)) ∧
      (∀ hd dl, FileEvent.BlockWithDeadline hd dl (some SysErr.ETIMEDOUT) ∈ r.2 →
        r.1.2 = some SysErr.ErrWouldBlock)) ∧
    (∀ r, pwritev f src offset attempts waits = some r →
      writeResults r.2 <+: attempts ∧ waitResults r.2 <+: waits ∧
      RunEnd false f (writeResults r.2) (waitResults r.2) r.1.2 ∧
      r.1.1 = wrapInt64 (((writeResults r.2).map Prod.fst).sum : Nat) ∧
      (((writeResults r.2).map Prod.fst).sum < 2 ^ 63 →
        r.1.1 = (((writeResults r.2).map Prod.fst).sum : Nat)) ∧
      (∀ pre s off n e post, r.2 = pre ++ FileEvent.Pwritev s off n e :: post →
        s = src.drop (sumCounts pre) ∧ off = wrapInt64 (offset + sumCounts pre) ∧
        (offset + sumCounts pre < 2 ^ 63 → off = offset + sumCounts pre))) ∧
    ((∃ a, attempts.getLast? = some a ∧ a.2 ≠ some SysErr.ErrWouldBlock) →
      attempts.length ≤ waits.length + 1 →
      (writev deadlineAfter f src attempts waits).isSome = true ∧
      (pwritev f src offset attempts waits).isSome = true) := by
  have hexact : ∀ k : Nat, k < 2 ^ 63 → wrapInt64 (k : Int) = (k : Int) := by
    intro k hk
    rw [wrapInt64_of_range]
    · have : (0 : Int) ≤ (k : Int) := Int.ofNat_nonneg k
      norm_num
      omega
    · exact_mod_cast hk
  refine ⟨?_, ?_, ?_⟩
  · intro r h
    obtain ⟨h1, h2, h3, h4, h5⟩ := writev_spec deadlineAfter f src attempts waits r hcounts h
    rw [sumCounts_eq_results] at h1
    refine ⟨h3, h4, h5, h1, ?_, fun pre s n e post hp => h2 pre _ post hp, ?_⟩
    · intro hlt
      rw [h1, hexact _ hlt]
    · intro hd dl hmem
      exact timeout_is_wouldBlock f r.2 r.1.2 hd dl h5 hmem
  · intro r h
    obtain ⟨h1, h2, h3, h4, h5⟩ := pwritev_spec f src offset attempts waits r hcounts hoff h
    rw [sumCounts_eq_results] at h1
    refine ⟨h3, h4, h5, h1, ?_, ?_⟩
    · intro hlt
      rw [h1, hexact _ hlt]
    · intro pre s off n e post hp
      have hev := h2 pre _ post hp
      refine ⟨hev.1, hev.2, ?_⟩
      intro hlt
      rw [hev.2, wrapInt64_of_range _ ?_ hlt]
      have h0 : (0 : Int) ≤ (sumCounts pre : Int) := Int.ofNat_nonneg _
      have := hoff.1
      omega
  · intro hlast hlen
    exact ⟨writev_isSome deadlineAfter f src attempts waits hlast hlen,
      pwritev_isSome f src offset attempts waits hlast hlen⟩

/-- Witness for the amended C11: a ten-byte source written in three attempts
of 3, 4 and 3 bytes by `pwritev` at offset 100 and by `writev`, both on a
blocking socket. -/
theorem C11_write_retry_accounting_witness :
    pwritev sampleSocket [1, 2, 3, 4, 5, 6, 7, 8, 9, 10] 100 sampleAttempts [none, none] =
      some samplePwritevRun ∧
    RunEnd false sampleSocket (writeResults samplePwritevRun.2)
      (waitResults samplePwritevRun.2) samplePwritevRun.1.2 ∧
    writev (fun dl => 1000 + dl) sampleSocket [1, 2, 3, 4, 5, 6, 7, 8, 9, 10] sampleAttempts
        [none, none] = some sampleWritevRun ∧
    RunEnd true sampleSocket (writeResults sampleWritevRun.2)
      (waitResults sampleWritevRun.2) sampleWritevRun.1.2 ∧
    writeResults sampleWritevRun.2 = sampleAttempts ∧
    ((writev (fun dl => 1000 + dl) sampleSocket [1, 2, 3, 4, 5, 6, 7, 8, 9, 10] sampleAttempts
        [none, none]).isSome = true ∧
      (pwritev sampleSocket [1, 2, 3, 4, 5, 6, 7, 8, 9, 10] 100 sampleAttempts
        [none, none]).isSome = true) :=
  ⟨by decide,
    ((C11_write_retry_accounting (fun dl => 1000 + dl) sampleSocket
      [1, 2, 3, 4, 5, 6, 7, 8, 9, 10] 100 sampleAttempts [none, none]
      (by decide) (by decide)).2.1 samplePwritevRun (by decide)).2.2.1,
    by decide,
    ((C11_write_retry_accounting (fun dl => 1000 + dl) sampleSocket
      [1, 2, 3, 4, 5, 6, 7, 8, 9, 10] 100 sampleAttempts [none, none]
      (by decide) (by decide)).1 sampleWritevRun (by decide)).2.2.1,
    by decide,
    (C11_write_retry_accounting (fun dl => 1000 + dl) sampleSocket
      [1, 2, 3, 4, 5, 6, 7, 8, 9, 10] 100 sampleAttempts [none, none]
      (by decide) (by decide)).2.2 ⟨(3, none), rfl, by decide⟩ (by decide)⟩

/-! ## Properties of `Pwritev2` -/

theorem intAnd_four_ne_one (v : Int) : (intAnd v 0x4 == 1) = false := by
  have h4 : toU64 4 = 4 := by decide
  have hle : toU64 v &&& 4 ≤ 4 := Nat.and_le_right
  have hbit : (toU64 v &&& 4).testBit 0 = false := by
    rw [Nat.testBit_and]
    have : Nat.testBit 4 0 = false := by decide
    rw [this, Bool.and_false]
  have hne : toU64 v &&& 4 ≠ 1 := by
    intro h1
    rw [h1] at hbit
    revert hbit
    decide
  have hlt : toU64 v &&& 4 < 2 ^ 63 := by
    have : (4 : Nat) < 2 ^ 63 := by norm_num
    omega
  have hval : intAnd v 0x4 = ((toU64 v &&& 4 : Nat) : Int) := by
    unfold intAnd ofU64
    rw [h4, if_pos hlt]
  rw [hval]
  simp only [beq_eq_false_iff_ne, ne_eq]
  intro h1
  apply hne
  exact_mod_cast h1

theorem Pwritev2_eq_withoutCheck (t : Task) (args : List Nat)
    (attempts : List (Nat × Option SysErr)) (waits : List (Option SysErr)) :
    Pwritev2 t args attempts waits = Pwritev2WithoutCheck t args attempts waits := by
  unfold Pwritev2 Pwritev2WithoutCheck
  simp only [intAnd_four_ne_one, Bool.false_eq_true, if_false]

/-- Where an `EACCES` returned by `Pwritev2` comes from: `IovecsIOSequence`
failed with it, or the write was made and `handleIOError`, given the count and
error of that write, returned it. -/
theorem Pwritev2_eacces_source (t : Task) (args : List Nat)
    (attempts : List (Nat × Option SysErr)) (waits : List (Option SysErr))
    (r : (Nat × Option Nat × Option SysErr) × List FileEvent)
    (h : Pwritev2 t args attempts waits = some r) (he : r.1.2.2 = some SysErr.EACCES) :
    (t.IovecsIOSequence (t.ArgPointer (args.getD 1 0)) (t.ArgInt (args.getD 2 0))).2 =
        some SysErr.EACCES ∨
      ∃ file src n err hist,
        t.GetFile (t.ArgInt (args.getD 0 0)) = some file ∧
        t.IovecsIOSequence (t.ArgPointer (args.getD 1 0)) (t.ArgInt (args.getD 2 0)) =
          (src, none) ∧
        ((t.ArgInt64 (args.getD 3 0) = -1 ∧
            writev t.DeadlineAfter file src attempts waits = some ((n, err), hist)) ∨
          (t.ArgInt64 (args.getD 3 0) ≠ -1 ∧
            pwritev file src (t.ArgInt64 (args.getD 3 0)) attempts waits =
              some ((n, err), hist))) ∧
        t.handleIOError (n != 0) err "pwritev2" file = some SysErr.EACCES ∧
        r = ((toU64 n, none, t.handleIOError (n != 0) err "pwritev2" file),
          hist ++ [FileEvent.AccountWriteSyscall n, FileEvent.DecRef]) := by
  unfold Pwritev2 at h
  simp only [intAnd_four_ne_one, Bool.false_eq_true, if_false] at h
  split at h
  · simp only [Option.some.injEq] at h
    subst h
    simp at he
  · rename_i file hfile
    split at h
    · simp only [Option.some.injEq] at h
      subst h
      simp at he
    · split at h
      · simp only [Option.some.injEq] at h
        subst h
        simp at he
      · split at h
        · simp only [Option.some.injEq] at h
          subst h
          simp at he
        · split at h
          · simp only [Option.some.injEq] at h
            subst h
            simp at he
          · split at h
            · rename_i x err hio
              simp only [Option.some.injEq] at h
              subst h
              left
              rw [hio]
              exact he
            · rename_i src hio
              split at h
              · rename_i hoff
                split at h
                · simp at h
                · rename_i n err hist hrun
                  simp only [Option.some.injEq] at h
                  subst h
                  exact Or.inr ⟨file, src, n, err, hist, hfile, hio,
                    Or.inl ⟨by simpa using hoff, hrun⟩, he, rfl⟩
              · rename_i hoff
                split at h
                · simp at h
                · rename_i n err hist hrun
                  simp only [Option.some.injEq] at h
                  subst h
                  exact Or.inr ⟨file, src, n, err, hist, hfile, hio,
                    Or.inr ⟨by simpa using hoff, hrun⟩, he, rfl⟩

/-- C12, as stated, fails: with the fifth argument 0, a write attempt that
fails with `EACCES` and writes nothing makes `Pwritev2` return `EACCES`. -/
theorem C12_pwritev2_returns_eacces :
    Pwritev2 sampleTask [3, 0, 1, 2 ^ 64 - 1, 0, 0] [(0, some SysErr.EACCES)] [] =
      some ((0, none, some SysErr.EACCES),
        [FileEvent.Writev [1, 2, 3, 4, 5, 6, 7, 8, 9, 10] 0 (some SysErr.EACCES),
          FileEvent.AccountWriteSyscall 0, FileEvent.DecRef]) := by
  decide

/-- C12, amended: for every value of the fifth syscall argument the guard
`int(args[4].Int())&0x4 == 1` is false, so the check never makes `Pwritev2`
return `EACCES`: for all arguments its result is the one it would give if the
check were absent. When it does return `EACCES`, either `IovecsIOSequence`
failed with it or `handleIOError` returned it for the write that was made. -/
theorem C12_pwritev2_check_never_fires (t : Task) (args : List Nat)
    (attempts : List (Nat × Option SysErr)) (waits : List (Option SysErr)) :
    (∀ v : Int, (intAnd v 0x4 == 1) = false) ∧
    Pwritev2 t args attempts waits = Pwritev2WithoutCheck t args attempts waits ∧
    (∀ r, Pwritev2 t args attempts waits = some r → r.1.2.2 = some SysErr.EACCES →
      ((t.IovecsIOSequence (t.ArgPointer (args.getD 1 0)) (t.ArgInt (args.getD 2 0))).2 =
          some SysErr.EACCES ∨
        ∃ file src n err hist,
          t.GetFile (t.ArgInt (args.getD 0 0)) = some file ∧
          t.IovecsIOSequence (t.ArgPointer (args.getD 1 0)) (t.ArgInt (args.getD 2 0)) =
            (src, none) ∧
          ((t.ArgInt64 (args.getD 3 0) = -1 ∧
              writev t.DeadlineAfter file src attempts waits = some ((n, err), hist)) ∨
            (t.ArgInt64 (args.getD 3 0) ≠ -1 ∧
              pwritev file src (t.ArgInt64 (args.getD 3 0)) attempts waits =
                some ((n, err), hist))) ∧
          t.handleIOError (n != 0) err "pwritev2" file = some SysErr.EACCES ∧
          r = ((toU64 n, none, t.handleIOError (n != 0) err "pwritev2" file),
            hist ++ [FileEvent.AccountWriteSyscall n, FileEvent.DecRef]))) :=
  ⟨intAnd_four_ne_one, Pwritev2_eq_withoutCheck t args attempts waits,
    fun r h he => Pwritev2_eacces_source t args attempts waits r h he⟩

/-- Witness for the amended C12: descriptor 3, offset -1 and the fifth argument
equal to 4, the bit the check masks: the write goes through and returns 10. -/
theorem C12_pwritev2_check_never_fires_witness :
    (intAnd 4 0x4 == 1) = false ∧
    Pwritev2 sampleTask [3, 0, 1, 2 ^ 64 - 1, 4, 0]
        [(3, some SysErr.ErrWouldBlock), (7, none)] [none] =
      Pwritev2WithoutCheck sampleTask [3, 0, 1, 2 ^ 64 - 1, 4, 0]
        [(3, some SysErr.ErrWouldBlock), (7, none)] [none] ∧
    (Pwritev2 sampleTask [3, 0, 1, 2 ^ 64 - 1, 4, 0]
        [(3, some SysErr.ErrWouldBlock), (7, none)] [none]).map (fun r => r.1) =
      some (10, none, none) :=
  ⟨(C12_pwritev2_check_never_fires sampleTask [3, 0, 1, 2 ^ 64 - 1, 4, 0]
      [(3, some SysErr.ErrWouldBlock), (7, none)] [none]).1 4,
    (C12_pwritev2_check_never_fires sampleTask [3, 0, 1, 2 ^ 64 - 1, 4, 0]
      [(3, some SysErr.ErrWouldBlock), (7, none)] [none]).2.1,
    by decide⟩

end linux
